import Mathlib

/-!
KOZOS boot loader tools: the XMODEM host transmitter and the serial line receiver.

Shallow embedding of `tools/kz_xmodem/src/kz_xmodem.c` (the host side of the
block-framed transfer) and of the receive-interrupt handler `intr` of
`07/os/main.c`, with the properties of the specification proved over them.

Conventions of the embedding.

* A byte (`unsigned char`) is a `Nat`; every store into an `unsigned char`
  that can exceed 255 is reduced modulo 256 explicitly.
* The serial port and the file are external to the program text
  (`serial.h`, `stdio.h`), so they are parameters: the port delivers the
  result of its `k`-th timed one-byte read as `rx k` (a byte, or `none` for a
  timeout), the file is its list of bytes.
* `transmit_file` takes the size of the file and the two counts derived from
  it as natural numbers; `transmit_file_lp64` is the same function with these
  three in the C types `long` and `int`, where the counts are those of
  `transmit_file` for files of fewer than `2 ^ 31` full blocks.
* `transmit_file` contains two `do ... while (c == CODE_NAK)` loops that the
  program does not bound.  The embedding runs each of them for at most
  `fuel` iterations and reports `none` as return value, together with the
  state reached, when a loop is still retransmitting at that point.
-/

namespace KzXmodem

/-! ## Constants of `kz_xmodem.c` -/

def CODE_SOH : Nat := 0x01
def CODE_EOT : Nat := 0x04
def CODE_ACK : Nat := 0x06
def CODE_NAK : Nat := 0x15
def CODE_CAN : Nat := 0x18
def CODE_EOF : Nat := 0x1A
def XMODEM_DATA_BLKSIZ : Nat := 128
def XMODEM_SEND_BLKSIZ : Nat := 3 + XMODEM_DATA_BLKSIZ + 1

def TIMEOUT_SHORT_MS : Nat := 10
def TIMEOUT_LONG_MS : Nat := 1000

def NAK_WAIT_SEC : Nat := 20
def NAK_WAIT_TIMES : Nat := (NAK_WAIT_SEC * 1000) / TIMEOUT_SHORT_MS

/-- Modelled from the spec: the enumeration `ErrorCode` of `kz_xmodem.h`, a
header that is not among the sources.  The constructors are the names used by
`kz_xmodem.c`. -/
inductive ErrorCode
  | NoError
  | SerialOpenError
  | SerialWriteError
  | TargetIllegalState
  | TargetIllegalResponse
  | FileOpenError
  | FileSeekError
  | FileReadError
  deriving DecidableEq, Repr

/-- Modelled from the spec: the integer value of an `ErrorCode`, which `main`
returns to the shell as `(int)ec`: 0 on success, then the error kinds
numbered from `SerialOpen = 2` in the order the spec lists them. -/
def ErrorCode.exit_code : ErrorCode → Int
  | .NoError => 0
  | .SerialOpenError => 2
  | .SerialWriteError => 3
  | .TargetIllegalState => 4
  | .TargetIllegalResponse => 5
  | .FileOpenError => 6
  | .FileSeekError => 7
  | .FileReadError => 8

/-! ## The host's environment -/

/-- One item written to standard error by `fprintf`: the banner with the two
counts of `transmit_file` (as natural numbers, or as the `int`s that `%d`
prints), or one character. -/
inductive Out
  | banner (block_count block_remainder : Nat)
  | banner_int (block_count block_remainder : Int)
  | ch (c : Char)
  deriving DecidableEq, Repr

/-- State of the host program's environment: the serial port (`rx`, the
number `rpos` of timed reads done so far, and the list `tx` of the buffers
passed to `serial_write`, oldest first), standard error, and the position of
the open file. -/
structure Host where
  rx : Nat → Option Nat
  rpos : Nat
  tx : List (List Nat)
  stderr : List Out
  fpos : Nat

/-- A file as `fopen`/`fseek` see it: its bytes and whether the two `fseek`
calls of `transmit_file` succeed. -/
structure HostFile where
  data : List Nat
  seek_end_ok : Bool
  seek_set_ok : Bool

/-- The call `serial_write(serial, buf, siz)`: the first `siz` bytes of `buf` go out. -/
def serial_write (s : Host) (buf : List Nat) (siz : Nat) : Host :=
  { s with tx := s.tx ++ [buf.take siz] }

/-- The call `serial_read_with_timeout(serial, &c, 1, timeout)`: the next
byte is stored in `c`; on a timeout `c` keeps its value. -/
def serial_read_with_timeout (s : Host) (c : Nat) : Nat × Host :=
  ((s.rx s.rpos).getD c, { s with rpos := s.rpos + 1 })

/-- The call `fprintf(stderr, "%c", c)`. -/
def fprintf_char (s : Host) (c : Char) : Host :=
  { s with stderr := s.stderr ++ [Out.ch c] }

/-- The call `fread(ptr, size, 1, fp)` on the file `file` at position `fpos`:
the item read and the new position, or `none` when fewer than `size` bytes
are left (the call then does not return 1). -/
def fread (file : List Nat) (fpos : Nat) (size : Nat) : Option (List Nat × Nat) :=
  if fpos + size ≤ file.length then some ((file.drop fpos).take size, fpos + size) else none

/-- The operator `~` on an `unsigned char`, stored back into an `unsigned char`. -/
def bnot8 (b : Nat) : Nat := (b ^^^ 0xFF) % 256

/-! ## `CALC_CHECKSUM` and `TRANSMIT_BLOCK` -/

/-- `CALC_CHECKSUM`: `for (i = 0; i < siz; i++) cs += buf[i];` on an
`unsigned char cs`. -/
def CALC_CHECKSUM (buf : List Nat) (siz : Int) : Nat :=
  (List.range siz.toNat).foldl (fun cs i => (cs + buf.getD i 0) % 256) 0

/-- `TRANSMIT_BLOCK`: write the buffer, then wait for one reply byte; the
reply variable starts as 0. -/
def TRANSMIT_BLOCK (s : Host) (buf : List Nat) (siz : Nat) : Nat × Host :=
  serial_read_with_timeout (serial_write s buf siz) 0

/-! ## `transmit_file` -/

/-- How control leaves a statement of `transmit_file`: it falls through to the
next statement, it jumps to the label `out` with `retval` set, or its
`do ... while` loop is still retransmitting after `fuel` iterations. -/
inductive Ctl
  | next
  | out (retval : ErrorCode)
  | spin
  deriving DecidableEq, Repr

/-- The loop `do { c = TRANSMIT_BLOCK(serial, buf, sizeof(buf));
fprintf(stderr, "%c", (c == CODE_ACK) ? '.' : 'x'); } while (c == CODE_NAK);`
run for at most `fuel` iterations.  The result is the last reply `c`, or
`none` when all `fuel` iterations ended with `c == CODE_NAK`. -/
def retry_loop (buf : List Nat) : Nat → Host → Option Nat × Host
  | 0, s => (none, s)
  | fuel + 1, s =>
    let r := TRANSMIT_BLOCK s buf XMODEM_SEND_BLKSIZ
    let s2 := fprintf_char r.2 (if r.1 = CODE_ACK then '.' else 'x')
    if r.1 = CODE_NAK then retry_loop buf fuel s2 else (some r.1, s2)

/-- The 132-byte buffer `buf` of `transmit_file` once it is filled:
`buf[0] = CODE_SOH; buf[1] = block_number; buf[2] = ~block_number;`,
the 128 data bytes from offset 3, and
`buf[3 + XMODEM_DATA_BLKSIZ] = CALC_CHECKSUM(&buf[3], XMODEM_DATA_BLKSIZ)`. -/
def send_buf (block_number : Nat) (data : List Nat) : List Nat :=
  [CODE_SOH, block_number, bnot8 block_number] ++ data
    ++ [CALC_CHECKSUM data XMODEM_DATA_BLKSIZ]

/-- The loop `for (i = 0; i < block_count; i++) { ... }` of `transmit_file`,
by recursion on the number `block_count - i` of iterations left; the result
carries the value of `block_number` on exit. -/
def full_blocks (file : List Nat) (fuel : Nat) : Nat → Nat → Host → Ctl × Nat × Host
  | 0, block_number, s => (Ctl.next, block_number, s)
  | left + 1, block_number, s =>
    match fread file s.fpos XMODEM_DATA_BLKSIZ with
    | none => (Ctl.out ErrorCode.FileReadError, block_number, s)
    | some (data, fpos1) =>
      match retry_loop (send_buf block_number data) fuel { s with fpos := fpos1 } with
      | (none, s1) => (Ctl.spin, block_number, s1)
      | (some c, s1) =>
        if c ≠ CODE_ACK then (Ctl.out ErrorCode.TargetIllegalResponse, block_number, s1)
        else full_blocks file fuel left ((block_number + 1) % 256) s1

/-- The statement `if (block_remainder > 0) { ... }` of `transmit_file`: the
buffer is filled with `CODE_EOF` by `memset`, then its first
`block_remainder` data bytes are overwritten by `fread`. -/
def last_block (file : List Nat) (fuel : Nat) (block_remainder : Nat)
    (block_number : Nat) (s : Host) : Ctl × Host :=
  if 0 < block_remainder then
    match fread file s.fpos block_remainder with
    | none => (Ctl.out ErrorCode.FileReadError, s)
    | some (rd, fpos1) =>
      let data := rd ++ (List.replicate XMODEM_DATA_BLKSIZ CODE_EOF).drop rd.length
      match retry_loop (send_buf block_number data) fuel { s with fpos := fpos1 } with
      | (none, s1) => (Ctl.spin, s1)
      | (some c, s1) =>
        if c ≠ CODE_ACK then (Ctl.out ErrorCode.TargetIllegalResponse, s1)
        else (Ctl.next, s1)
  else (Ctl.next, s)

/-- The last block of `transmit_file`: `c = CODE_EOT` is written, then read
back over with the long timeout, and anything but `CODE_ACK` is an error. -/
def send_eot (s : Host) : Ctl × Host :=
  let r := serial_read_with_timeout (serial_write s [CODE_EOT] 1) CODE_EOT
  if r.1 ≠ CODE_ACK then (Ctl.out ErrorCode.TargetIllegalResponse, r.2)
  else (Ctl.next, r.2)

/-- The label `out:` of `transmit_file`: a newline on standard error, then
`return retval` (`fclose` has no effect on the state kept here). -/
def at_out (retval : ErrorCode) (s : Host) : Option ErrorCode × Host :=
  (some retval, fprintf_char s '\n')

/-- What a statement's exit means for `transmit_file` as a whole, given the
rest of the function. -/
def Ctl.andThen (r : Ctl) (s : Host) (rest : Host → Option ErrorCode × Host) :
    Option ErrorCode × Host :=
  match r with
  | Ctl.next => rest s
  | Ctl.out retval => at_out retval s
  | Ctl.spin => (none, s)

/-- `transmit_file`, each retry loop run for at most `fuel` iterations.
`file = none` is a file that `fopen` cannot open.  The first component of the
result is the value returned, `none` when a retry loop was still running. -/
def transmit_file (fuel : Nat) (s : Host) (file : Option HostFile) :
    Option ErrorCode × Host :=
  match file with
  | none => (some ErrorCode.FileOpenError, s)
  | some f =>
    if f.seek_end_ok = false then at_out ErrorCode.FileSeekError s
    else
      let file_size := f.data.length
      let block_count := file_size / XMODEM_DATA_BLKSIZ
      let block_remainder := file_size % XMODEM_DATA_BLKSIZ
      if f.seek_set_ok = false then
        at_out ErrorCode.FileSeekError { s with fpos := file_size }
      else
        let s0 : Host :=
          { s with fpos := 0, stderr := s.stderr ++ [Out.banner block_count block_remainder] }
        let r1 := full_blocks f.data fuel block_count 1 s0
        r1.1.andThen r1.2.2 fun s1 =>
          let r2 := last_block f.data fuel block_remainder r1.2.1 s1
          r2.1.andThen r2.2 fun s2 =>
            let r3 := send_eot s2
            r3.1.andThen r3.2 fun s3 => at_out ErrorCode.NoError s3

/-! ## `transmit_file` with the C types of its counters -/

/-- Conversion of an integer value to `int`: 32 bits in two's complement, the
value wrapping around when it is out of range. -/
def to_int (x : Int) : Int := (x + 2147483648) % 4294967296 - 2147483648

/-- The call `ftell(fp)` at the end of a file of `n` bytes, returning a `long`
of 64 bits: the size of the file, or -1 when the size does not fit. -/
def ftell (n : Nat) : Int := if (n : Int) < 9223372036854775808 then n else -1

/-- The statements of `transmit_file` after the banner, for the values of
`block_count` and `block_remainder` that the loop and the `if` act on (a
count that is not positive runs no iteration and sends no last block). -/
def transmit_counted (data : List Nat) (fuel block_count block_remainder : Nat)
    (s0 : Host) : Option ErrorCode × Host :=
  (full_blocks data fuel block_count 1 s0).1.andThen
    (full_blocks data fuel block_count 1 s0).2.2 fun s1 =>
      (last_block data fuel block_remainder
          (full_blocks data fuel block_count 1 s0).2.1 s1).1.andThen
        (last_block data fuel block_remainder
          (full_blocks data fuel block_count 1 s0).2.1 s1).2
        fun s2 => (send_eot s2).1.andThen (send_eot s2).2
          fun s3 => at_out ErrorCode.NoError s3

/-- `transmit_file` with lines 250 to 252 in the C types of a host with `long`
of 64 bits and `int` of 32 bits: `long file_size = ftell(fp);`,
`int block_count = file_size / XMODEM_DATA_BLKSIZ;` and
`int block_remainder = file_size % XMODEM_DATA_BLKSIZ;`, the division and the
remainder of C truncating towards zero and the results narrowed to `int`.
The rest is that of `transmit_file`. -/
def transmit_file_lp64 (fuel : Nat) (s : Host) (file : Option HostFile) :
    Option ErrorCode × Host :=
  match file with
  | none => (some ErrorCode.FileOpenError, s)
  | some f =>
    if f.seek_end_ok = false then at_out ErrorCode.FileSeekError s
    else
      let file_size : Int := ftell f.data.length
      let block_count : Int := to_int (file_size.tdiv 128)
      let block_remainder : Int := to_int (file_size.tmod 128)
      if f.seek_set_ok = false then
        at_out ErrorCode.FileSeekError { s with fpos := f.data.length }
      else
        transmit_counted f.data fuel block_count.toNat block_remainder.toNat
          { s with fpos := 0,
                   stderr := s.stderr ++ [Out.banner_int block_count block_remainder] }

/-! ## `wait_target_nak` -/

/-- The loop `while (1) { ... }` of `wait_target_nak` from the value `cnt` of
its counter, run for at most `fuel` iterations; `none` is returned when the
loop has not left by then. -/
def wait_target_nak_loop : Nat → Nat → Host → Option ErrorCode × Host
  | 0, _, s => (none, s)
  | fuel + 1, cnt, s =>
    let r := serial_read_with_timeout s 0x00
    let s1 := if cnt % (1000 / TIMEOUT_SHORT_MS) = 0 then fprintf_char r.2 '.' else r.2
    if r.1 = CODE_NAK then (some ErrorCode.NoError, s1)
    else if cnt + 1 > NAK_WAIT_TIMES then (some ErrorCode.TargetIllegalState, s1)
    else wait_target_nak_loop fuel (cnt + 1) s1

/-- `wait_target_nak`: the loop from `cnt = 0`, then a newline on standard error. -/
def wait_target_nak (fuel : Nat) (s : Host) : Option ErrorCode × Host :=
  let r := wait_target_nak_loop fuel 0 s
  (r.1, if r.1.isSome then fprintf_char r.2 '\n' else r.2)

/-! ## Reading a run of `transmit_file` -/

/-- Number of `CODE_ACK` replies among the replies to the first `j` frames. -/
def acks (rx : Nat → Option Nat) (p : Nat) : Nat → Nat
  | 0 => 0
  | j + 1 => acks rx p j + (if rx (p + j) = some CODE_ACK then 1 else 0)

/-- The 128 data bytes of block `k` (counted from 0) of a file: its bytes from
offset `128 * k`, filled up with `CODE_EOF` when fewer than 128 are left. -/
def payload (file : List Nat) (k : Nat) : List Nat :=
  let rd := (file.drop (XMODEM_DATA_BLKSIZ * k)).take XMODEM_DATA_BLKSIZ
  rd ++ List.replicate (XMODEM_DATA_BLKSIZ - rd.length) CODE_EOF

/-- Number of blocks a file of `n` bytes is sent in. -/
def block_total (n : Nat) : Nat :=
  n / XMODEM_DATA_BLKSIZ + (if 0 < n % XMODEM_DATA_BLKSIZ then 1 else 0)

/-- The progress mark printed after a reply. -/
def mark (r : Option Nat) : Out :=
  Out.ch (if r.getD 0 = CODE_ACK then '.' else 'x')

/-- Between the states `s` and `s1` the program wrote exactly the buffers
`frames`, read one reply after each, and printed one progress mark per reply. -/
def Sent (s s1 : Host) (frames : List (List Nat)) : Prop :=
  s1.rx = s.rx ∧ s1.rpos = s.rpos + frames.length ∧ s1.tx = s.tx ++ frames
    ∧ s1.stderr = s.stderr ++ (List.range frames.length).map (fun j => mark (s.rx (s.rpos + j)))

/-- The `j`-th of `frames` is the frame of the block reached after the
`CODE_ACK` replies so far, counting blocks from `i` and block numbers from `bn`. -/
def Numbered (file : List Nat) (rx : Nat → Option Nat) (p i bn : Nat)
    (frames : List (List Nat)) : Prop :=
  ∀ j w, frames[j]? = some w →
    w = send_buf ((bn + acks rx p j) % 256) (payload file (i + acks rx p j))

/-- Every frame but the last of `n` was answered by `CODE_ACK` or `CODE_NAK`. -/
def Answered (rx : Nat → Option Nat) (p n : Nat) : Prop :=
  ∀ j, j + 1 < n → rx (p + j) = some CODE_ACK ∨ rx (p + j) = some CODE_NAK

/-- How a stage that has `target` blocks to send ends after `n` frames. -/
def Outcome (rx : Nat → Option Nat) (p fuel n target : Nat) : Ctl → Prop
  | Ctl.next => acks rx p n = target
  | Ctl.out e => e = ErrorCode.TargetIllegalResponse ∧ 0 < n
      ∧ rx (p + (n - 1)) ≠ some CODE_ACK ∧ rx (p + (n - 1)) ≠ some CODE_NAK
  | Ctl.spin => fuel ≤ n ∧ ∀ j, n - fuel ≤ j → j < n → rx (p + j) = some CODE_NAK

/-- A stage of `transmit_file` from `s` to `s1` that sends the `target` blocks
from block `i` on, ending with `c`. -/
def Stage (file : List Nat) (fuel i bn target : Nat) (s s1 : Host) (c : Ctl) : Prop :=
  ∃ frames : List (List Nat),
    Sent s s1 frames ∧ Numbered file s.rx s.rpos i bn frames
      ∧ (∀ j, j < frames.length → acks s.rx s.rpos j < target)
      ∧ Answered s.rx s.rpos frames.length
      ∧ Outcome s.rx s.rpos fuel frames.length target c
      ∧ (0 < frames.length → 0 < fuel)

/-- The exit of a retry loop as `transmit_file` acts on it. -/
def Ctl.ofReply : Option Nat → Ctl
  | none => Ctl.spin
  | some c => if c ≠ CODE_ACK then Ctl.out ErrorCode.TargetIllegalResponse else Ctl.next

/-- The progress marks printed for the replies to the first `n` frames. -/
def marks (rx : Nat → Option Nat) (p n : Nat) : List Out :=
  (List.range n).map (fun j => mark (rx (p + j)))

/-- The state in which `r` ended, against the state `s0` before the first
frame: the `frames` and then the buffers `eot` were written, one reply was
read after each, and the marks and then `nl` were printed. -/
def Ended (s0 : Host) (r : Option ErrorCode × Host) (frames eot : List (List Nat))
    (nl : List Out) : Prop :=
  r.2.rx = s0.rx ∧ r.2.rpos = s0.rpos + frames.length + eot.length
    ∧ r.2.tx = s0.tx ++ frames ++ eot
    ∧ r.2.stderr = s0.stderr ++ marks s0.rx s0.rpos frames.length ++ nl

/-- The three ways a run of `transmit_file` on a file of `total` blocks ends
once the file is open: a retry loop is still running; a reply to a frame was
neither `CODE_ACK` nor `CODE_NAK`; or every block was acknowledged, `CODE_EOT`
was written and its reply decides the return value. -/
def Finished (fuel total : Nat) (s0 : Host) (r : Option ErrorCode × Host)
    (frames : List (List Nat)) : Prop :=
  (r.1 = none ∧ Ended s0 r frames [] []
      ∧ Outcome s0.rx s0.rpos fuel frames.length total Ctl.spin)
  ∨ (r.1 = some ErrorCode.TargetIllegalResponse ∧ Ended s0 r frames [] [Out.ch '\n']
      ∧ Outcome s0.rx s0.rpos fuel frames.length total
          (Ctl.out ErrorCode.TargetIllegalResponse))
  ∨ (r.1 = some (if s0.rx (s0.rpos + frames.length) = some CODE_ACK
        then ErrorCode.NoError else ErrorCode.TargetIllegalResponse)
      ∧ Ended s0 r frames [[CODE_EOT]] [Out.ch '\n']
      ∧ acks s0.rx s0.rpos frames.length = total)

/-- The state of `transmit_file` when the block transfer starts: the file is
rewound and the banner is printed. -/
def started (s : Host) (data : List Nat) : Host :=
  { s with fpos := 0, stderr := s.stderr ++
      [Out.banner (data.length / XMODEM_DATA_BLKSIZ) (data.length % XMODEM_DATA_BLKSIZ)] }

/-- The buffers written by a run that started in `s` and ended in `s1`. -/
def writes (s s1 : Host) : List (List Nat) := s1.tx.drop s.tx.length

/-- The data bytes of a frame: its 128 bytes from offset 3. -/
def frame_payload (w : List Nat) : List Nat := (w.drop 3).take XMODEM_DATA_BLKSIZ

/-- A port on which every read yields `CODE_ACK`, with nothing written or
printed yet. -/
def ack_port : Host :=
  { rx := fun _ => some CODE_ACK, rpos := 0, tx := [], stderr := [], fpos := 0 }

/-- A port on which the second read yields `CODE_NAK` and every other read
`CODE_ACK`, with nothing written or printed yet. -/
def nak_once_port : Host :=
  { rx := fun k => if k = 1 then some CODE_NAK else some CODE_ACK,
    rpos := 0, tx := [], stderr := [], fpos := 0 }

/-- A port on which the first `n` reads yield `CODE_NAK` and every later read
`CODE_ACK`, with nothing written or printed yet. -/
def nak_port (n : Nat) : Host :=
  { rx := fun k => if k < n then some CODE_NAK else some CODE_ACK,
    rpos := 0, tx := [], stderr := [], fpos := 0 }

/-- A port on which every read yields `CODE_NAK`, with nothing written or
printed yet. -/
def nak_for_ever : Host :=
  { rx := fun _ => some CODE_NAK, rpos := 0, tx := [], stderr := [], fpos := 0 }

/-- A port on which the first `n` reads yield `CODE_ACK` and every later read
times out, with nothing written or printed yet. -/
def ack_then_silent (n : Nat) : Host :=
  { rx := fun k => if k < n then some CODE_ACK else none,
    rpos := 0, tx := [], stderr := [], fpos := 0 }

/-- A file of 300 bytes, no two neighbours equal. -/
def sample_300 : List Nat := (List.range 300).map (fun i => (7 * i + 3) % 256)

/-- A file of 256 full blocks, enough for the block number to come back to 0. -/
def sample_wrap : List Nat := List.replicate 32768 7

/-- A readable file with the given bytes. -/
def readable (data : List Nat) : Option HostFile :=
  some { data := data, seek_end_ok := true, seek_set_ok := true }

end KzXmodem

/-! ## The receive-interrupt handler `intr` of `07/os/main.c` -/

namespace Os07

/-- One call of `puts`: the string read from the line buffer, or a string
literal of the program. -/
inductive Put
  | text (bytes : List Nat)
  | lit (s : String)
  deriving DecidableEq, Repr

/-- The static variables of `intr` (`static char buf[32]; static int len;`)
and what the handler did to its surroundings: `stray` lists, oldest first,
the indices outside `buf` that a store `buf[len++] = ...` went to, `console`
the calls of `puts`. -/
structure IntrState where
  buf : List Nat
  len : Nat
  stray : List Nat
  console : List Put
  deriving DecidableEq, Repr

/-- Size of the array `buf`. -/
def BUF_SIZE : Nat := 32

/-- The static variables at program start: `buf` and `len` are zeroed. -/
def IntrState.init : IntrState :=
  { buf := List.replicate BUF_SIZE 0, len := 0, stray := [], console := [] }

/-- The statement `buf[len++] = v`: a store inside the array changes it, a
store at an index of 32 or more lands outside of it and is recorded. -/
def store (st : IntrState) (v : Nat) : IntrState :=
  if st.len < BUF_SIZE then
    { st with buf := st.buf.set st.len (v % 256), len := st.len + 1 }
  else
    { st with stray := st.stray ++ [st.len], len := st.len + 1 }

/-- Modelled from the spec: `strncmp(s, "echo", 4) == 0` for the library
routine `strncmp` declared in `lib.h`, whose body is not among the sources:
the first four characters of `s` are `echo`. -/
def is_echo (s : List Nat) : Bool :=
  s.take 4 == [101, 99, 104, 111]

/-- Modelled from the spec: the characters `puts(p)` sends for the library
routine `puts` declared in `lib.h`, whose body is not among the sources: the
bytes from `p` up to the first NUL. -/
def c_string (p : List Nat) : List Nat :=
  p.takeWhile (fun b => b != 0)

/-- The handler `intr` on the character `c` that `getc()` returns. -/
def intr (st : IntrState) (c : Nat) : IntrState :=
  if c ≠ 10 then
    store st c
  else
    let st1 := store st 0
    let st2 : IntrState :=
      if is_echo st1.buf then
        { st1 with console := st1.console ++ [Put.text (c_string (st1.buf.drop 4)), Put.lit "\n"] }
      else
        { st1 with console := st1.console ++ [Put.lit "unknown command.\n"] }
    { st2 with console := st2.console ++ [Put.lit "> "], len := 0 }

/-- The handler run on a sequence of received characters, from program start. -/
def run (cs : List Nat) : IntrState :=
  cs.foldl intr IntrState.init

end Os07

namespace KzXmodem

theorem CALC_CHECKSUM_range (buf : List Nat) (n : Nat) (h : n ≤ buf.length) :
    (List.range n).foldl (fun cs i => (cs + buf.getD i 0) % 256) 0
      = (buf.take n).sum % 256 := by
  induction n with
  | zero => simp
  | succ k ih =>
    have hk : k < buf.length := h
    rw [List.range_succ, List.foldl_append, ih (Nat.le_of_lt hk)]
    simp only [List.foldl_cons, List.foldl_nil]
    rw [List.take_succ, List.sum_append]
    simp [List.getD, List.getElem?_eq_getElem hk, Nat.add_mod]

/-- C1: for `0 ≤ siz ≤ length buf`, `CALC_CHECKSUM buf siz` is the sum of the
first `siz` bytes of `buf` modulo 256; for `siz = 128` this is the sum of the
128 payload bytes modulo 256, and for `siz = 0` it is 0. -/
theorem CALC_CHECKSUM_eq_sum (buf : List Nat) (siz : Int)
    (h0 : 0 ≤ siz) (h1 : siz ≤ buf.length) :
    CALC_CHECKSUM buf siz = (buf.take siz.toNat).sum % 256
      ∧ (siz = 128 → CALC_CHECKSUM buf 128 = (buf.take 128).sum % 256)
      ∧ CALC_CHECKSUM buf 0 = 0 := by
  have key : CALC_CHECKSUM buf siz = (buf.take siz.toNat).sum % 256 := by
    unfold CALC_CHECKSUM
    apply CALC_CHECKSUM_range
    omega
  refine ⟨key, ?_, ?_⟩
  · intro h
    subst h
    exact key
  · simp [CALC_CHECKSUM]

theorem CALC_CHECKSUM_eq_sum_witness :
    CALC_CHECKSUM [200, 100, 7] 2 = ([200, 100, 7].take (2 : Int).toNat).sum % 256
      ∧ ((2 : Int) = 128 → CALC_CHECKSUM [200, 100, 7] 128 = ([200, 100, 7].take 128).sum % 256)
      ∧ CALC_CHECKSUM [200, 100, 7] 0 = 0 :=
  CALC_CHECKSUM_eq_sum [200, 100, 7] 2 (by decide) (by decide)

end KzXmodem

namespace KzXmodem

/-! ## `wait_target_nak` -/

theorem getD_zero_eq_NAK (o : Option Nat) : o.getD 0x00 = CODE_NAK ↔ o = some CODE_NAK := by
  cases o <;> simp [CODE_NAK]

theorem wait_target_nak_loop_ret (fuel cnt : Nat) (s : Host)
    (hc : cnt ≤ NAK_WAIT_TIMES) (hf : NAK_WAIT_TIMES + 1 - cnt ≤ fuel) :
    (wait_target_nak_loop fuel cnt s).1 =
      some (if ∃ j, j ≤ NAK_WAIT_TIMES - cnt ∧ s.rx (s.rpos + j) = some CODE_NAK
        then ErrorCode.NoError else ErrorCode.TargetIllegalState) := by
  induction fuel generalizing cnt s with
  | zero => omega
  | succ fuel ih =>
    simp only [wait_target_nak_loop, serial_read_with_timeout, getD_zero_eq_NAK]
    by_cases h0 : s.rx s.rpos = some CODE_NAK
    · have hex : ∃ j, j ≤ NAK_WAIT_TIMES - cnt ∧ s.rx (s.rpos + j) = some CODE_NAK :=
        ⟨0, Nat.zero_le _, by simpa using h0⟩
      simp [h0, hex]
    · by_cases h1 : cnt + 1 > NAK_WAIT_TIMES
      · have hno : ¬ ∃ j, j ≤ NAK_WAIT_TIMES - cnt ∧ s.rx (s.rpos + j) = some CODE_NAK := by
          rintro ⟨j, hj, hr⟩
          have : j = 0 := by omega
          subst this
          exact h0 (by simpa using hr)
        simp [h0, h1, hno]
      · simp only [h0, h1, if_false]
        rw [ih (cnt + 1) _ (by omega) (by omega)]
        have hrx : ∀ t : Host, (if cnt % (1000 / TIMEOUT_SHORT_MS) = 0
            then fprintf_char { s with rpos := s.rpos + 1 } '.'
            else { s with rpos := s.rpos + 1 }) = t → t.rx = s.rx ∧ t.rpos = s.rpos + 1 := by
          intro t ht
          subst ht
          split <;> simp [fprintf_char]
        obtain ⟨e1, e2⟩ := hrx _ rfl
        rw [e1, e2]
        congr 1
        apply if_congr _ rfl rfl
        constructor
        · rintro ⟨j, hj, hr⟩
          exact ⟨j + 1, by omega, by rw [← hr]; congr 1; omega⟩
        · rintro ⟨j, hj, hr⟩
          cases j with
          | zero => exact absurd (by simpa using hr) h0
          | succ j => exact ⟨j, by omega, by rw [← hr]; congr 1; omega⟩

/-- With 2001 iterations allowed, `wait_target_nak` returns for every input
stream: `NoError` when one of its first `NAK_WAIT_TIMES + 1` reads yields
`CODE_NAK`, `TargetIllegalState` otherwise. -/
theorem wait_target_nak_ret (fuel : Nat) (s : Host) (hf : NAK_WAIT_TIMES + 1 ≤ fuel) :
    (wait_target_nak fuel s).1 =
      some (if ∃ j, j ≤ NAK_WAIT_TIMES ∧ s.rx (s.rpos + j) = some CODE_NAK
        then ErrorCode.NoError else ErrorCode.TargetIllegalState) := by
  simp only [wait_target_nak]
  rw [wait_target_nak_loop_ret fuel 0 s (Nat.zero_le _) (by omega)]
  simp

/-- C8: the window of `wait_target_nak` is 2001 reads, one more than
`NAK_WAIT_TIMES`: when the first 2000 reads time out and the 2001st yields
`CODE_NAK`, the function returns `NoError`, not `TargetIllegalState`. -/
theorem wait_target_nak_accepts_read_2001 :
    NAK_WAIT_TIMES = 2000 ∧
    (wait_target_nak 2001
      { rx := fun k => if k = 2000 then some CODE_NAK else none,
        rpos := 0, tx := [], stderr := [], fpos := 0 }).1 = some ErrorCode.NoError := by
  refine ⟨by decide, ?_⟩
  rw [wait_target_nak_ret _ _ (by decide)]
  have : ∃ j, j ≤ NAK_WAIT_TIMES ∧
      (if 0 + j = 2000 then some CODE_NAK else none) = some CODE_NAK :=
    ⟨2000, by decide, by simp⟩
  simp only [this, if_true]

end KzXmodem

namespace KzXmodem

/-! ## Counting acknowledgements -/

theorem acks_add (rx : Nat → Option Nat) (p a b : Nat) :
    acks rx p (a + b) = acks rx p a + acks rx (p + a) b := by
  induction b with
  | zero => simp [acks]
  | succ b ih =>
    rw [← Nat.add_assoc, acks, ih, acks, Nat.add_assoc p a b]
    omega

theorem acks_eq_zero (rx : Nat → Option Nat) (p n : Nat)
    (h : ∀ j, j < n → rx (p + j) ≠ some CODE_ACK) : acks rx p n = 0 := by
  induction n with
  | zero => rfl
  | succ n ih =>
    rw [acks, ih (fun j hj => h j (by omega)), if_neg (h n (by omega))]

theorem acks_eq_self (rx : Nat → Option Nat) (p n : Nat)
    (h : ∀ j, j < n → rx (p + j) = some CODE_ACK) : acks rx p n = n := by
  induction n with
  | zero => rfl
  | succ n ih =>
    rw [acks, ih (fun j hj => h j (by omega)), if_pos (h n (by omega))]

theorem NAK_ne_ACK : (some CODE_NAK : Option Nat) ≠ some CODE_ACK := by decide

/-! ## The retry loop -/

theorem getD_eq_ACK (o : Option Nat) : o.getD 0 = CODE_ACK ↔ o = some CODE_ACK := by
  cases o <;> simp [CODE_ACK]

theorem getD_eq_NAK (o : Option Nat) : o.getD 0 = CODE_NAK ↔ o = some CODE_NAK := by
  cases o <;> simp [CODE_NAK]

theorem Sent.refl (s : Host) : Sent s s [] := by
  simp [Sent]

theorem Sent.append {s s1 s2 : Host} {f1 f2 : List (List Nat)}
    (h1 : Sent s s1 f1) (h2 : Sent s1 s2 f2) : Sent s s2 (f1 ++ f2) := by
  obtain ⟨a1, a2, a3, a4⟩ := h1
  obtain ⟨b1, b2, b3, b4⟩ := h2
  refine ⟨b1.trans a1, ?_, ?_, ?_⟩
  · rw [b2, a2, List.length_append]; omega
  · rw [b3, a3, List.append_assoc]
  · rw [b4, a4, a1, a2, List.length_append, List.range_add, List.map_append, List.map_map,
      List.append_assoc]
    congr 2
    apply List.map_congr_left
    intro j _
    simp [Nat.add_assoc]

/-- One pass through the body of the retry loop. -/
theorem Sent.one (s : Host) (buf : List Nat) :
    Sent s (fprintf_char (TRANSMIT_BLOCK s buf XMODEM_SEND_BLKSIZ).2
      (if (TRANSMIT_BLOCK s buf XMODEM_SEND_BLKSIZ).1 = CODE_ACK then '.' else 'x'))
      [buf.take XMODEM_SEND_BLKSIZ] := by
  simp [Sent, fprintf_char, TRANSMIT_BLOCK, serial_read_with_timeout, serial_write, mark,
    List.range_succ]

theorem payload_length (file : List Nat) (k : Nat) :
    (payload file k).length = XMODEM_DATA_BLKSIZ := by
  simp only [payload, List.length_append, List.length_replicate, List.length_take,
    List.length_drop]
  omega

theorem send_buf_length (bn : Nat) (data : List Nat) :
    (send_buf bn data).length = data.length + 4 := by
  simp [send_buf]

theorem send_buf_take (bn : Nat) (file : List Nat) (k : Nat) :
    (send_buf bn (payload file k)).take XMODEM_SEND_BLKSIZ = send_buf bn (payload file k) := by
  apply List.take_of_length_le
  rw [send_buf_length, payload_length]
  decide

/-- The retry loop writes the same buffer `k` times, the first `k - 1` of
them answered by `CODE_NAK`; it stops at the first other reply, or after
`fuel` passes. -/
theorem retry_loop_spec (buf : List Nat) (fuel : Nat) (s : Host) :
    ∃ k, Sent s (retry_loop buf fuel s).2 (List.replicate k (buf.take XMODEM_SEND_BLKSIZ))
      ∧ (retry_loop buf fuel s).2.fpos = s.fpos
      ∧ (∀ j, j + 1 < k → s.rx (s.rpos + j) = some CODE_NAK)
      ∧ (match (retry_loop buf fuel s).1 with
          | none => k = fuel ∧ ∀ j, j < k → s.rx (s.rpos + j) = some CODE_NAK
          | some c => 0 < k ∧ k ≤ fuel ∧ c = (s.rx (s.rpos + (k - 1))).getD 0
              ∧ c ≠ CODE_NAK) := by
  induction fuel generalizing s with
  | zero => exact ⟨0, by simp [retry_loop, Sent.refl]⟩
  | succ fuel ih =>
    have hone := Sent.one s buf
    have hfp : (fprintf_char (TRANSMIT_BLOCK s buf XMODEM_SEND_BLKSIZ).2
        (if (TRANSMIT_BLOCK s buf XMODEM_SEND_BLKSIZ).1 = CODE_ACK then '.' else 'x')).fpos
          = s.fpos := rfl
    have hc : (TRANSMIT_BLOCK s buf XMODEM_SEND_BLKSIZ).1 = (s.rx s.rpos).getD 0 := rfl
    rw [retry_loop]
    by_cases hnak : (TRANSMIT_BLOCK s buf XMODEM_SEND_BLKSIZ).1 = CODE_NAK
    · rw [if_pos hnak]
      have hr0 : s.rx s.rpos = some CODE_NAK := (getD_eq_NAK _).1 (hc ▸ hnak)
      obtain ⟨k, h1, h2, h3, h4⟩ := ih (fprintf_char (TRANSMIT_BLOCK s buf XMODEM_SEND_BLKSIZ).2
        (if (TRANSMIT_BLOCK s buf XMODEM_SEND_BLKSIZ).1 = CODE_ACK then '.' else 'x'))
      have hrx := hone.1
      have hrp : _ = s.rpos + 1 := hone.2.1
      rw [hrx, hrp] at h3 h4
      have shift : ∀ j, s.rx (s.rpos + (j + 1)) = s.rx (s.rpos + 1 + j) := by
        intro j; congr 1; omega
      refine ⟨k + 1, ?_, h2.trans hfp, ?_, ?_⟩
      · have := Sent.append hone h1
        rwa [List.replicate_succ]
      · intro j hj
        cases j with
        | zero => simpa using hr0
        | succ j => rw [shift]; exact h3 j (by omega)
      · revert h4
        cases (retry_loop buf fuel _).1 with
        | none =>
          rintro ⟨e, hall⟩
          refine ⟨by omega, ?_⟩
          intro j hj
          cases j with
          | zero => simpa using hr0
          | succ j => rw [shift]; exact hall j (by omega)
        | some c =>
          rintro ⟨kpos, kle, hcv, hcn⟩
          refine ⟨by omega, by omega, ?_, hcn⟩
          rw [hcv]
          congr 2
          omega
    · rw [if_neg hnak]
      refine ⟨1, ?_, hfp, ?_, ?_⟩
      · simpa using hone
      · intro j hj; omega
      · exact ⟨by omega, by omega, by simpa using hc, hnak⟩

/-! ## Stages of `transmit_file` -/

theorem Stage.weaken {file : List Nat} {fuel i bn t t1 : Nat} {s s1 : Host} {c : Ctl}
    (h : Stage file fuel i bn t s s1 c) (hc : c ≠ Ctl.next) (ht : t ≤ t1) :
    Stage file fuel i bn t1 s s1 c := by
  obtain ⟨frames, h1, h2, h3, h4, h5, h6⟩ := h
  refine ⟨frames, h1, h2, fun j hj => Nat.lt_of_lt_of_le (h3 j hj) ht, h4, ?_, h6⟩
  cases c with
  | next => exact absurd rfl hc
  | out e => exact h5
  | spin => exact h5

theorem Stage.empty (file : List Nat) (fuel i bn : Nat) (s : Host) :
    Stage file fuel i bn 0 s s Ctl.next :=
  ⟨[], Sent.refl s, by intro j w h; simp at h, by intro j h; simp at h,
    by intro j h; simp at h, by simp [Outcome, acks], by simp⟩

theorem Stage.seq {file : List Nat} {fuel i bn t1 t2 : Nat} {s s1 s2 : Host} {c : Ctl}
    (h1 : Stage file fuel i bn t1 s s1 Ctl.next)
    (h2 : Stage file fuel (i + t1) ((bn + t1) % 256) t2 s1 s2 c) :
    Stage file fuel i bn (t1 + t2) s s2 c := by
  obtain ⟨f1, a1, a2, a3, a4, a5, a6⟩ := h1
  obtain ⟨f2, b1, b2, b3, b4, b5, b6⟩ := h2
  have hrx : s1.rx = s.rx := a1.1
  have hrp : s1.rpos = s.rpos + f1.length := a1.2.1
  rw [hrx, hrp] at b2 b3 b4 b5
  have hacks : acks s.rx s.rpos f1.length = t1 := a5
  have split : ∀ j, f1.length ≤ j →
      acks s.rx s.rpos j = t1 + acks s.rx (s.rpos + f1.length) (j - f1.length) := by
    intro j hj
    rw [← hacks, ← acks_add]
    congr 1; omega
  refine ⟨f1 ++ f2, Sent.append a1 b1, ?_, ?_, ?_, ?_, ?_⟩
  · intro j w hw
    by_cases hj : j < f1.length
    · rw [List.getElem?_append_left hj] at hw
      exact a2 j w hw
    · rw [List.getElem?_append_right (by omega)] at hw
      rw [b2 _ w hw, split j (by omega)]
      congr 1
      · omega
      · congr 1; omega
  · intro j hj
    rw [List.length_append] at hj
    by_cases hj1 : j < f1.length
    · have := a3 j hj1; omega
    · have := b3 (j - f1.length) (by omega)
      rw [split j (by omega)]; omega
  · intro j hj
    rw [List.length_append] at hj
    by_cases hj1 : j + 1 < f1.length
    · exact a4 j hj1
    · by_cases hj2 : j + 1 = f1.length
      · have hlt := a3 j (by omega)
        have hs : acks s.rx s.rpos (j + 1) = t1 := by rw [hj2]; exact hacks
        rw [acks] at hs
        by_cases hr : s.rx (s.rpos + j) = some CODE_ACK
        · exact Or.inl hr
        · rw [if_neg hr] at hs; omega
      · have := b4 (j - f1.length) (by omega)
        have e : s.rpos + f1.length + (j - f1.length) = s.rpos + j := by omega
        rwa [e] at this
  · rw [List.length_append]
    cases c with
    | next =>
      have hb : acks s.rx (s.rpos + f1.length) f2.length = t2 := b5
      show acks s.rx s.rpos (f1.length + f2.length) = t1 + t2
      rw [acks_add, hacks, hb]
    | out e =>
      obtain ⟨e1, e2, e3, e4⟩ := b5
      have e : s.rpos + f1.length + (f2.length - 1) = s.rpos + (f1.length + f2.length - 1) := by
        omega
      rw [e] at e3 e4
      exact ⟨e1, by omega, e3, e4⟩
    | spin =>
      obtain ⟨e1, e2⟩ := b5
      refine ⟨by omega, ?_⟩
      intro j hj1 hj2
      have := e2 (j - f1.length) (by omega) (by omega)
      have e : s.rpos + f1.length + (j - f1.length) = s.rpos + j := by omega
      rwa [e] at this
  · rw [List.length_append]
    intro h
    by_cases h0 : 0 < f1.length
    · exact a6 h0
    · exact b6 (by omega)

/-- The retry loop on the frame of block `i` is a stage that sends one block. -/
theorem retry_loop_stage (file : List Nat) (fuel i bn : Nat) (s : Host) (hbn : bn < 256) :
    Stage file fuel i bn 1 s (retry_loop (send_buf bn (payload file i)) fuel s).2
      (Ctl.ofReply (retry_loop (send_buf bn (payload file i)) fuel s).1) := by
  obtain ⟨k, h1, _, h3, h4⟩ := retry_loop_spec (send_buf bn (payload file i)) fuel s
  rw [send_buf_take] at h1
  have hz : ∀ j, j < k → acks s.rx s.rpos j = 0 := by
    intro j hj
    apply acks_eq_zero
    intro t ht
    rw [h3 t (by omega)]
    exact NAK_ne_ACK
  refine ⟨_, h1, ?_, ?_, ?_, ?_, ?_⟩
  · intro j w hw
    have hj : j < k := by
      have := (List.getElem?_eq_some_iff.1 hw).1
      simpa using this
    rw [List.getElem?_replicate, if_pos hj] at hw
    rw [hz j hj, Nat.add_zero, Nat.add_zero, Nat.mod_eq_of_lt hbn]
    exact (Option.some.inj hw).symm
  · intro j hj
    rw [List.length_replicate] at hj
    rw [hz j hj]; omega
  · intro j hj
    rw [List.length_replicate] at hj
    exact Or.inr (h3 j hj)
  · rw [List.length_replicate]
    revert h4
    cases (retry_loop (send_buf bn (payload file i)) fuel s).1 with
    | none =>
      rintro ⟨e, hall⟩
      exact ⟨by omega, fun j _ hj => hall j hj⟩
    | some c =>
      rintro ⟨kpos, kle, hcv, hcn⟩
      by_cases hca : c = CODE_ACK
      · have hr : s.rx (s.rpos + (k - 1)) = some CODE_ACK :=
          (getD_eq_ACK _).1 (hcv ▸ hca)
        simp only [Ctl.ofReply, hca, ne_eq, not_true_eq_false, if_false]
        show acks s.rx s.rpos k = 1
        obtain ⟨m, rfl⟩ : ∃ m, k = m + 1 := ⟨k - 1, by omega⟩
        rw [acks, hz m (by omega)]
        simp at hr
        simp [hr]
      · simp only [Ctl.ofReply, ne_eq, hca, not_false_eq_true, if_true]
        refine ⟨rfl, kpos, ?_, ?_⟩
        · intro hr
          rw [hr] at hcv
          exact hca (by simpa using hcv)
        · intro hr
          rw [hr] at hcv
          exact hcn (by simpa using hcv)
  · rw [List.length_replicate]
    revert h4
    cases (retry_loop (send_buf bn (payload file i)) fuel s).1 with
    | none => rintro ⟨e, _⟩ hk; omega
    | some c => rintro ⟨_, kle, _, _⟩ hk; omega

theorem Stage.of_fpos {file : List Nat} {fuel i bn t : Nat} {s s1 : Host} {c : Ctl} (x : Nat)
    (h : Stage file fuel i bn t { s with fpos := x } s1 c) : Stage file fuel i bn t s s1 c := h

theorem blk : XMODEM_DATA_BLKSIZ = 128 := rfl

theorem block_total_pos (data : List Nat) (h : data ≠ []) : 0 < block_total data.length := by
  have : 0 < data.length := List.length_pos.2 h
  simp only [block_total, blk]
  split <;> omega

theorem fread_full (file : List Nat) (i : Nat)
    (h : XMODEM_DATA_BLKSIZ * (i + 1) ≤ file.length) :
    fread file (XMODEM_DATA_BLKSIZ * i) XMODEM_DATA_BLKSIZ
      = some (payload file i, XMODEM_DATA_BLKSIZ * (i + 1)) := by
  have hlen : ((file.drop (XMODEM_DATA_BLKSIZ * i)).take XMODEM_DATA_BLKSIZ).length
      = XMODEM_DATA_BLKSIZ := by
    rw [List.length_take, List.length_drop]; simp only [blk] at *; omega
  rw [fread, if_pos (by simp only [blk] at *; omega)]
  simp only [payload, hlen, Nat.sub_self, List.replicate_zero, List.append_nil]
  rfl

theorem full_blocks_stage (file : List Nat) (fuel : Nat) :
    ∀ (left i bn : Nat) (s : Host), bn < 256 → s.fpos = XMODEM_DATA_BLKSIZ * i →
      XMODEM_DATA_BLKSIZ * (i + left) ≤ file.length →
      Stage file fuel i bn left s (full_blocks file fuel left bn s).2.2
          (full_blocks file fuel left bn s).1
        ∧ ((full_blocks file fuel left bn s).1 = Ctl.next →
            (full_blocks file fuel left bn s).2.1 = (bn + left) % 256
              ∧ (full_blocks file fuel left bn s).2.2.fpos = XMODEM_DATA_BLKSIZ * (i + left)) := by
  intro left
  induction left with
  | zero =>
    intro i bn s hbn hfp _
    refine ⟨Stage.empty file fuel i bn s, fun _ => ⟨?_, hfp⟩⟩
    simp only [full_blocks, Nat.add_zero]
    exact (Nat.mod_eq_of_lt hbn).symm
  | succ left ih =>
    intro i bn s hbn hfp hlen
    have hfr := fread_full file i (by simp only [blk] at *; omega)
    have hst := retry_loop_stage file fuel i bn
      { s with fpos := XMODEM_DATA_BLKSIZ * (i + 1) } hbn
    obtain ⟨_, _, hfp1, _, _⟩ := retry_loop_spec (send_buf bn (payload file i)) fuel
      { s with fpos := XMODEM_DATA_BLKSIZ * (i + 1) }
    rw [full_blocks, hfp, hfr]
    simp only []
    rcases hr : retry_loop (send_buf bn (payload file i)) fuel
      { s with fpos := XMODEM_DATA_BLKSIZ * (i + 1) } with ⟨_ | c, s1⟩
    · rw [hr] at hst
      exact ⟨(Stage.of_fpos _ hst).weaken (by simp [Ctl.ofReply]) (by simp only [blk] at *; omega),
        fun h => by simp at h⟩
    · rw [hr] at hst hfp1
      simp only [Ctl.ofReply] at hst
      by_cases hc : c = CODE_ACK
      · rw [if_neg (by simpa using hc)] at hst
        simp only [ne_eq, hc, not_true_eq_false, if_false]
        have hrec := ih (i + 1) ((bn + 1) % 256) s1 (Nat.mod_lt _ (by decide)) hfp1
          (by rw [Nat.add_assoc, Nat.add_comm 1 left]; exact hlen)
        refine ⟨?_, ?_⟩
        · have := Stage.seq (Stage.of_fpos _ hst) hrec.1
          rwa [Nat.add_comm 1 left] at this
        · intro hn
          obtain ⟨e1, e2⟩ := hrec.2 hn
          refine ⟨?_, ?_⟩
          · rw [e1]; omega
          · rw [e2]; simp only [blk]; omega
      · rw [if_pos (by simpa using hc)] at hst
        simp only [ne_eq, hc, not_false_eq_true, if_true]
        exact ⟨(Stage.of_fpos _ hst).weaken (by simp) (by simp only [blk] at *; omega), fun h => by simp at h⟩

theorem last_block_stage (file : List Nat) (fuel bn : Nat) (s : Host) (hbn : bn < 256)
    (hfp : s.fpos = XMODEM_DATA_BLKSIZ * (file.length / XMODEM_DATA_BLKSIZ)) :
    Stage file fuel (file.length / XMODEM_DATA_BLKSIZ) bn
      (if 0 < file.length % XMODEM_DATA_BLKSIZ then 1 else 0) s
      (last_block file fuel (file.length % XMODEM_DATA_BLKSIZ) bn s).2
      (last_block file fuel (file.length % XMODEM_DATA_BLKSIZ) bn s).1 := by
  by_cases hrem : 0 < file.length % XMODEM_DATA_BLKSIZ
  · have hdiv := Nat.div_add_mod file.length XMODEM_DATA_BLKSIZ
    have hlt : file.length % XMODEM_DATA_BLKSIZ < XMODEM_DATA_BLKSIZ :=
      Nat.mod_lt _ (by decide)
    have hdl : (file.drop (XMODEM_DATA_BLKSIZ * (file.length / XMODEM_DATA_BLKSIZ))).length
        = file.length % XMODEM_DATA_BLKSIZ := by
      rw [List.length_drop]; simp only [blk] at *; omega
    have hfr : fread file s.fpos (file.length % XMODEM_DATA_BLKSIZ)
        = some (file.drop (XMODEM_DATA_BLKSIZ * (file.length / XMODEM_DATA_BLKSIZ)),
            file.length) := by
      rw [fread, hfp, if_pos (by simp only [blk] at *; omega), hdiv, List.take_of_length_le (by simp only [blk] at *; omega)]
    have hpay : file.drop (XMODEM_DATA_BLKSIZ * (file.length / XMODEM_DATA_BLKSIZ))
          ++ (List.replicate XMODEM_DATA_BLKSIZ CODE_EOF).drop
            (file.drop (XMODEM_DATA_BLKSIZ * (file.length / XMODEM_DATA_BLKSIZ))).length
        = payload file (file.length / XMODEM_DATA_BLKSIZ) := by
      simp only [payload]
      rw [List.take_of_length_le (by simp only [blk] at *; omega), List.drop_replicate]
    have hst := retry_loop_stage file fuel (file.length / XMODEM_DATA_BLKSIZ) bn
      { s with fpos := file.length } hbn
    rw [if_pos hrem, last_block, if_pos hrem, hfr]
    simp only [hpay]
    rcases hr : retry_loop (send_buf bn (payload file (file.length / XMODEM_DATA_BLKSIZ))) fuel
      { s with fpos := file.length } with ⟨_ | c, s1⟩
    · rw [hr] at hst
      exact Stage.of_fpos _ hst
    · rw [hr] at hst
      simp only [Ctl.ofReply] at hst
      by_cases hc : c = CODE_ACK
      · rw [if_neg (by simpa using hc)] at hst
        simp only [ne_eq, hc, not_true_eq_false, if_false]
        exact Stage.of_fpos _ hst
      · rw [if_pos (by simpa using hc)] at hst
        simp only [ne_eq, hc, not_false_eq_true, if_true]
        exact Stage.of_fpos _ hst
  · rw [if_neg hrem, last_block, if_neg hrem]
    exact Stage.empty _ _ _ _ _

/-! ## The whole of `transmit_file` -/

theorem getD_EOT_eq_ACK (o : Option Nat) : o.getD CODE_EOT = CODE_ACK ↔ o = some CODE_ACK := by
  cases o <;> simp [CODE_ACK, CODE_EOT]

theorem send_eot_eq (s : Host) :
    send_eot s = (if (s.rx s.rpos).getD CODE_EOT = CODE_ACK then Ctl.next
        else Ctl.out ErrorCode.TargetIllegalResponse,
      { s with rpos := s.rpos + 1, tx := s.tx ++ [[CODE_EOT]] }) := by
  by_cases h : (s.rx s.rpos).getD CODE_EOT = CODE_ACK <;>
    simp [send_eot, serial_read_with_timeout, serial_write, h]

/-- From the end of the block stages to the return of `transmit_file`. -/
theorem finish_of_stage (data : List Nat) (fuel total : Nat) (s0 s2 : Host) (c : Ctl)
    (h : Stage data fuel 0 1 total s0 s2 c) :
    ∃ frames : List (List Nat),
      Numbered data s0.rx s0.rpos 0 1 frames
        ∧ (∀ j, j < frames.length → acks s0.rx s0.rpos j < total)
        ∧ Answered s0.rx s0.rpos frames.length
        ∧ (0 < frames.length → 0 < fuel)
        ∧ Finished fuel total s0
            (c.andThen s2 fun s2 => (send_eot s2).1.andThen (send_eot s2).2
              fun s3 => at_out ErrorCode.NoError s3) frames := by
  obtain ⟨frames, ⟨h1, h2, h3, h4⟩, hn, hb, ha, ho, hf⟩ := h
  refine ⟨frames, hn, hb, ha, hf, ?_⟩
  cases c with
  | spin =>
    refine Or.inl ⟨rfl, ⟨h1, ?_, ?_, ?_⟩, ho⟩
    · simpa using h2
    · simpa using h3
    · simpa [marks] using h4
  | out e =>
    obtain ⟨rfl, ho2⟩ := ho
    refine Or.inr (Or.inl ⟨rfl, ⟨h1, ?_, ?_, ?_⟩, rfl, ho2⟩)
    · simpa [Ctl.andThen, at_out, fprintf_char] using h2
    · simpa [Ctl.andThen, at_out, fprintf_char] using h3
    · simp [Ctl.andThen, at_out, fprintf_char, marks, h4]
  | next =>
    refine Or.inr (Or.inr ?_)
    have hrd : s2.rx s2.rpos = s0.rx (s0.rpos + frames.length) := by rw [h1, h2]
    simp only [Ctl.andThen, send_eot_eq, hrd, getD_EOT_eq_ACK]
    by_cases hack : s0.rx (s0.rpos + frames.length) = some CODE_ACK
    · simp only [hack, if_true]
      refine ⟨rfl, ⟨h1, ?_, ?_, ?_⟩, ho⟩
      · simp [at_out, fprintf_char, h2]
      · simp [at_out, fprintf_char, h3]
      · simp [at_out, fprintf_char, h4, marks]
    · simp only [hack, if_false]
      refine ⟨rfl, ⟨h1, ?_, ?_, ?_⟩, ho⟩
      · simp [at_out, fprintf_char, h2]
      · simp [at_out, fprintf_char, h3]
      · simp [at_out, fprintf_char, h4, marks]

theorem transmit_file_readable (fuel : Nat) (s : Host) (data : List Nat) :
    transmit_file fuel s (readable data)
      = (full_blocks data fuel (data.length / XMODEM_DATA_BLKSIZ) 1 (started s data)).1.andThen
          (full_blocks data fuel (data.length / XMODEM_DATA_BLKSIZ) 1 (started s data)).2.2
          fun s1 =>
            (last_block data fuel (data.length % XMODEM_DATA_BLKSIZ)
              (full_blocks data fuel (data.length / XMODEM_DATA_BLKSIZ) 1 (started s data)).2.1
              s1).1.andThen
            (last_block data fuel (data.length % XMODEM_DATA_BLKSIZ)
              (full_blocks data fuel (data.length / XMODEM_DATA_BLKSIZ) 1 (started s data)).2.1
              s1).2
            fun s2 => (send_eot s2).1.andThen (send_eot s2).2
              fun s3 => at_out ErrorCode.NoError s3 :=
  rfl

theorem andThen_congr (c : Ctl) (s : Host) (f g : Host → Option ErrorCode × Host)
    (h : c ≠ Ctl.next) : c.andThen s f = c.andThen s g := by
  cases c with
  | next => exact absurd rfl h
  | out e => rfl
  | spin => rfl

/-- Every run of `transmit_file` on a readable file: the frames written are
those of the blocks in order, a block being repeated after `CODE_NAK` and
followed by the next after `CODE_ACK`, and the run ends in one of three ways. -/
theorem transmit_file_run (fuel : Nat) (s : Host) (data : List Nat) :
    ∃ frames : List (List Nat),
      Numbered data s.rx s.rpos 0 1 frames
        ∧ (∀ j, j < frames.length → acks s.rx s.rpos j < block_total data.length)
        ∧ Answered s.rx s.rpos frames.length
        ∧ (0 < frames.length → 0 < fuel)
        ∧ Finished fuel (block_total data.length) (started s data)
            (transmit_file fuel s (readable data)) frames := by
  have h1 := full_blocks_stage data fuel (data.length / XMODEM_DATA_BLKSIZ) 0 1
    (started s data) (by decide) rfl
    (by rw [Nat.zero_add]; exact Nat.mul_div_le _ _)
  have key : ∃ s2 c, Stage data fuel 0 1 (block_total data.length) (started s data) s2 c
      ∧ transmit_file fuel s (readable data)
        = c.andThen s2 fun s2 => (send_eot s2).1.andThen (send_eot s2).2
            fun s3 => at_out ErrorCode.NoError s3 := by
    by_cases hn : (full_blocks data fuel (data.length / XMODEM_DATA_BLKSIZ) 1
        (started s data)).1 = Ctl.next
    · obtain ⟨e1, e2⟩ := h1.2 hn
      rw [Nat.zero_add] at e2
      have h2 := last_block_stage data fuel ((1 + data.length / XMODEM_DATA_BLKSIZ) % 256) _
        (Nat.mod_lt _ (by decide)) e2
      have h3 := h1.1
      rw [hn] at h3
      have h4 := Stage.seq h3 (by rw [Nat.zero_add]; exact h2)
      refine ⟨_, _, h4, ?_⟩
      rw [transmit_file_readable, hn, e1]
      rfl
    · refine ⟨_, _, h1.1.weaken hn (by simp [block_total]), ?_⟩
      rw [transmit_file_readable]
      exact andThen_congr _ _ _ _ hn
  obtain ⟨s2, c, hst, heq⟩ := key
  rw [heq]
  exact finish_of_stage data fuel _ _ s2 c hst

theorem writes_of_ended {s : Host} {data : List Nat} {r : Option ErrorCode × Host}
    {frames eot : List (List Nat)} {nl : List Out}
    (h : Ended (started s data) r frames eot nl) : writes s r.2 = frames ++ eot := by
  obtain ⟨_, _, h3, _⟩ := h
  have e : (started s data).tx = s.tx := rfl
  rw [writes, h3, e, List.append_assoc]
  simp

/-- The run of `transmit_file` on a readable file, read off the buffers it
wrote: `n` frames, the `j`-th being the frame of the block reached after the
`CODE_ACK` replies before it, and then one of three endings. -/
theorem transmit_file_trace (fuel : Nat) (s : Host) (data : List Nat) :
    ∃ n : Nat,
      (∀ j, j < n →
          (writes s (transmit_file fuel s (readable data)).2)[j]?
            = some (send_buf ((1 + acks s.rx s.rpos j) % 256)
                (payload data (acks s.rx s.rpos j)))
          ∧ acks s.rx s.rpos j < block_total data.length)
      ∧ Answered s.rx s.rpos n
      ∧ (0 < n → 0 < fuel)
      ∧ (((transmit_file fuel s (readable data)).1 = none
          ∧ (writes s (transmit_file fuel s (readable data)).2).length = n
          ∧ (transmit_file fuel s (readable data)).2.stderr
              = (started s data).stderr ++ marks s.rx s.rpos n
          ∧ fuel ≤ n
          ∧ ∀ j, n - fuel ≤ j → j < n → s.rx (s.rpos + j) = some CODE_NAK)
        ∨ ((transmit_file fuel s (readable data)).1 = some ErrorCode.TargetIllegalResponse
          ∧ (writes s (transmit_file fuel s (readable data)).2).length = n
          ∧ (transmit_file fuel s (readable data)).2.stderr
              = (started s data).stderr ++ marks s.rx s.rpos n ++ [Out.ch '\n']
          ∧ 0 < n
          ∧ s.rx (s.rpos + (n - 1)) ≠ some CODE_ACK
          ∧ s.rx (s.rpos + (n - 1)) ≠ some CODE_NAK)
        ∨ ((transmit_file fuel s (readable data)).1
              = some (if s.rx (s.rpos + n) = some CODE_ACK
                  then ErrorCode.NoError else ErrorCode.TargetIllegalResponse)
          ∧ (writes s (transmit_file fuel s (readable data)).2).length = n + 1
          ∧ (writes s (transmit_file fuel s (readable data)).2)[n]? = some [CODE_EOT]
          ∧ (transmit_file fuel s (readable data)).2.stderr
              = (started s data).stderr ++ marks s.rx s.rpos n ++ [Out.ch '\n']
          ∧ acks s.rx s.rpos n = block_total data.length)) := by
  obtain ⟨frames, hn, hb, ha, hf, hfin⟩ := transmit_file_run fuel s data
  have hfr : ∀ eot : List (List Nat), ∀ j, j < frames.length →
      (frames ++ eot)[j]? = some (send_buf ((1 + acks s.rx s.rpos j) % 256)
        (payload data (acks s.rx s.rpos j))) := by
    intro eot j hj
    rw [List.getElem?_append_left hj]
    have h1 : frames[j]? = some frames[j] := List.getElem?_eq_getElem hj
    rw [h1, hn j _ h1, Nat.zero_add]
  refine ⟨frames.length, ?_, ha, hf, ?_⟩
  · intro j hj
    refine ⟨?_, hb j hj⟩
    rcases hfin with ⟨_, he, _⟩ | ⟨_, he, _⟩ | ⟨_, he, _⟩ <;>
      rw [writes_of_ended he] <;> exact hfr _ j hj
  · rcases hfin with ⟨h1, he, h3, h4⟩ | ⟨h1, he, _, h3, h4, h5⟩ | ⟨h1, he, h3⟩
    · refine Or.inl ⟨h1, ?_, ?_, h3, h4⟩
      · rw [writes_of_ended he]; simp
      · have := he.2.2.2; simpa using this
    · refine Or.inr (Or.inl ⟨h1, ?_, he.2.2.2, h3, h4, h5⟩)
      rw [writes_of_ended he]; simp
    · refine Or.inr (Or.inr ⟨h1, ?_, ?_, he.2.2.2, h3⟩)
      · rw [writes_of_ended he]; simp
      · rw [writes_of_ended he]; simp

/-! ## The layout of a frame -/

set_option maxRecDepth 100000 in
theorem bnot8_spec : ∀ b, b < 256 → b + bnot8 b = 0xFF ∧ b ^^^ bnot8 b = 0xFF := by
  decide

theorem CALC_CHECKSUM_block (data : List Nat) (h : data.length = 128) :
    CALC_CHECKSUM data XMODEM_DATA_BLKSIZ = data.sum % 256 := by
  have := CALC_CHECKSUM_range data 128 (by omega)
  rw [List.take_of_length_le (by omega)] at this
  exact this

theorem frame_payload_send_buf (b : Nat) (data : List Nat) (h : data.length = 128) :
    frame_payload (send_buf b data) = data := by
  have e : send_buf b data = [CODE_SOH, b, bnot8 b] ++ (data ++ [CALC_CHECKSUM data XMODEM_DATA_BLKSIZ]) := by
    simp [send_buf]
  rw [frame_payload, e, List.drop_left' (by rfl), List.take_left' (by rw [h]; rfl)]

theorem send_buf_last (b : Nat) (data : List Nat) (h : data.length = 128) :
    (send_buf b data)[131]? = some (data.sum % 256) := by
  have e : send_buf b data = ([CODE_SOH, b, bnot8 b] ++ data) ++ [CALC_CHECKSUM data XMODEM_DATA_BLKSIZ] := rfl
  rw [e, List.getElem?_append_right (by simp [h]), CALC_CHECKSUM_block data h]
  simp [h]

theorem send_buf_ne_EOT (b : Nat) (data : List Nat) : send_buf b data ≠ [CODE_EOT] := by
  intro h
  have := congrArg List.length h
  rw [send_buf_length] at this
  simp at this

/-- A file is readable, or `transmit_file` writes nothing to the port. -/
theorem readable_or_silent (fuel : Nat) (s : Host) (file : Option HostFile) :
    (∃ f, file = some f ∧ file = readable f.data)
      ∨ writes s (transmit_file fuel s file).2 = [] := by
  rcases file with _ | ⟨data, e, t⟩
  · right; simp [transmit_file, writes]
  · cases e
    · right; simp [transmit_file, writes, at_out, fprintf_char]
    · cases t
      · right; simp [transmit_file, writes, at_out, fprintf_char]
      · left; exact ⟨_, rfl, rfl⟩

/-- The frames of a run: each buffer written is `CODE_EOT` alone or the frame
of a block of the file, numbered by the `CODE_ACK` replies before it. -/
theorem writes_cases (fuel : Nat) (s : Host) (data : List Nat) (j : Nat) (w : List Nat)
    (hw : (writes s (transmit_file fuel s (readable data)).2)[j]? = some w) :
    (w = [CODE_EOT] ∧ (writes s (transmit_file fuel s (readable data)).2).length = j + 1
        ∧ acks s.rx s.rpos j = block_total data.length
        ∧ (transmit_file fuel s (readable data)).1
            = some (if s.rx (s.rpos + j) = some CODE_ACK
                then ErrorCode.NoError else ErrorCode.TargetIllegalResponse))
      ∨ (w = send_buf ((1 + acks s.rx s.rpos j) % 256) (payload data (acks s.rx s.rpos j))
        ∧ acks s.rx s.rpos j < block_total data.length) := by
  obtain ⟨n, hfr, _, _, hend⟩ := transmit_file_trace fuel s data
  have hj : j < (writes s (transmit_file fuel s (readable data)).2).length :=
    (List.getElem?_eq_some_iff.1 hw).1
  by_cases hjn : j < n
  · right
    obtain ⟨h1, h2⟩ := hfr j hjn
    rw [h1] at hw
    exact ⟨(Option.some.inj hw).symm, h2⟩
  · rcases hend with ⟨_, hl, _⟩ | ⟨_, hl, _⟩ | ⟨hr, hl, he, _, ha⟩
    · omega
    · omega
    · have : j = n := by omega
      subst this
      rw [he] at hw
      exact Or.inl ⟨(Option.some.inj hw).symm, hl, ha, hr⟩

/-- What follows a data frame, by the reply to it. -/
theorem writes_step (fuel : Nat) (s : Host) (data : List Nat) (j : Nat) (w : List Nat)
    (hw : (writes s (transmit_file fuel s (readable data)).2)[j]? = some w)
    (hd : w ≠ [CODE_EOT]) :
    (s.rx (s.rpos + j) = some CODE_ACK
        ∧ ∃ w2, (writes s (transmit_file fuel s (readable data)).2)[j + 1]? = some w2)
      ∨ (s.rx (s.rpos + j) = some CODE_NAK
        ∧ ((writes s (transmit_file fuel s (readable data)).2)[j + 1]? = some w
          ∨ ((writes s (transmit_file fuel s (readable data)).2).length = j + 1
            ∧ (transmit_file fuel s (readable data)).1 = none)))
      ∨ (s.rx (s.rpos + j) ≠ some CODE_ACK ∧ s.rx (s.rpos + j) ≠ some CODE_NAK
        ∧ (writes s (transmit_file fuel s (readable data)).2).length = j + 1
        ∧ (transmit_file fuel s (readable data)).1
            = some ErrorCode.TargetIllegalResponse) := by
  obtain ⟨n, hfr, hans, hfuel, hend⟩ := transmit_file_trace fuel s data
  have hj : j < (writes s (transmit_file fuel s (readable data)).2).length :=
    (List.getElem?_eq_some_iff.1 hw).1
  have hjn : j < n := by
    rcases hend with ⟨_, hl, _⟩ | ⟨_, hl, _⟩ | ⟨_, hl, he, _⟩
    · omega
    · omega
    · by_contra hc
      have : j = n := by omega
      subst this
      rw [he] at hw
      exact hd (Option.some.inj hw).symm
  have hwj := (hfr j hjn).1
  rw [hw] at hwj
  have hacks : acks s.rx s.rpos (j + 1)
      = acks s.rx s.rpos j + (if s.rx (s.rpos + j) = some CODE_ACK then 1 else 0) := rfl
  by_cases hlast : j + 1 < n
  · have hw2 := (hfr (j + 1) hlast).1
    rcases hans j hlast with ha | hn
    · exact Or.inl ⟨ha, _, hw2⟩
    · refine Or.inr (Or.inl ⟨hn, Or.inl ?_⟩)
      have hsame : acks s.rx s.rpos (j + 1) = acks s.rx s.rpos j := by
        rw [hacks, hn, if_neg NAK_ne_ACK]; rfl
      rw [hw2, hsame, hwj]
  · have hjl : n - 1 = j := by omega
    rcases hend with ⟨hr, hl, _, hf, hnak⟩ | ⟨hr, hl, _, _, h1, h2⟩ | ⟨_, hl, he, _, ha⟩
    · have hf0 := hfuel (by omega)
      exact Or.inr (Or.inl ⟨hnak j (by omega) hjn, Or.inr ⟨by omega, hr⟩⟩)
    · rw [hjl] at h1 h2
      exact Or.inr (Or.inr ⟨h1, h2, by omega, hr⟩)
    · have hb := (hfr j hjn).2
      have hn1 : j + 1 = n := by omega
      rw [← hn1, hacks] at ha
      by_cases hack : s.rx (s.rpos + j) = some CODE_ACK
      · exact Or.inl ⟨hack, _, by rw [hn1]; exact he⟩
      · rw [if_neg hack] at ha; omega

/-- C3: the block number carried by the `j`-th buffer written, when it is a
data frame, is one more than the number of `CODE_ACK` replies received before
it, modulo 256, and its data bytes are those of the block of the file with
that index: the first frame carries 1, a frame written after `CODE_NAK` is the
same frame again, and a frame written after `CODE_ACK` carries the next number
modulo 256 (so 255 is followed by 0).  No data frame follows any other reply. -/
theorem transmit_file_block_numbers (fuel : Nat) (s : Host) (file : Option HostFile)
    (j : Nat) (w : List Nat)
    (hw : (writes s (transmit_file fuel s file).2)[j]? = some w) (hd : w ≠ [CODE_EOT]) :
    w[1]? = some ((acks s.rx s.rpos j + 1) % 256)
      ∧ (∃ f, file = some f ∧ acks s.rx s.rpos j < block_total f.data.length
          ∧ frame_payload w = payload f.data (acks s.rx s.rpos j))
      ∧ (j = 0 → w[1]? = some 1)
      ∧ (∀ w2, (writes s (transmit_file fuel s file).2)[j + 1]? = some w2 → w2 ≠ [CODE_EOT] →
          (s.rx (s.rpos + j) = some CODE_NAK ∧ w2 = w)
            ∨ (s.rx (s.rpos + j) = some CODE_ACK
              ∧ acks s.rx s.rpos (j + 1) = acks s.rx s.rpos j + 1
              ∧ ∃ b, w[1]? = some b ∧ w2[1]? = some ((b + 1) % 256))) := by
  rcases readable_or_silent fuel s file with ⟨f, hf, hr⟩ | hsil
  · rw [hr] at hw ⊢
    have hnum : ∀ i v, (writes s (transmit_file fuel s (readable f.data)).2)[i]? = some v →
        v ≠ [CODE_EOT] → v = send_buf ((1 + acks s.rx s.rpos i) % 256)
            (payload f.data (acks s.rx s.rpos i))
          ∧ acks s.rx s.rpos i < block_total f.data.length := by
      intro i v hv hne
      rcases writes_cases fuel s f.data i v hv with ⟨h, _⟩ | h
      · exact absurd h hne
      · exact h
    obtain ⟨h1, h2⟩ := hnum j w hw hd
    have hb1 : w[1]? = some ((acks s.rx s.rpos j + 1) % 256) := by
      rw [h1, Nat.add_comm]; simp [send_buf]
    refine ⟨hb1, ⟨f, by rw [← hr, hf], h2, ?_⟩, ?_, ?_⟩
    · rw [h1]; exact frame_payload_send_buf _ _ (payload_length _ _)
    · intro h0
      subst h0
      rw [hb1]; rfl
    · intro w2 hw2 hd2
      obtain ⟨e1, _⟩ := hnum (j + 1) w2 hw2 hd2
      have hacks : acks s.rx s.rpos (j + 1)
          = acks s.rx s.rpos j + (if s.rx (s.rpos + j) = some CODE_ACK then 1 else 0) := rfl
      rcases writes_step fuel s f.data j w hw hd with ⟨ha, _⟩ | ⟨hn, _⟩ | ⟨_, _, hl, _⟩
      · right
        rw [ha, if_pos rfl] at hacks
        refine ⟨ha, hacks, _, hb1, ?_⟩
        rw [e1, hacks]
        simp only [send_buf, List.cons_append, List.getElem?_cons_succ, List.getElem?_cons_zero]
        congr 1
        omega
      · left
        have hsame : acks s.rx s.rpos (j + 1) = acks s.rx s.rpos j := by
          rw [hacks, hn, if_neg NAK_ne_ACK]; rfl
        refine ⟨hn, ?_⟩
        rw [e1, h1, hsame]
      · have := (List.getElem?_eq_some_iff.1 hw2).1
        omega
  · rw [hsil] at hw
    simp at hw

/-- C4: how `transmit_file` treats the reply awaited after each buffer it
writes, for every readable file and every stream of replies.  A run with at
least one loop iteration allowed writes a first buffer: the frame of block 1,
or `CODE_EOT` for an empty file.  After a data frame: `CODE_ACK` makes it go
on, with `CODE_EOT` when that was the last block and with the frame of the
next block otherwise; `CODE_NAK` makes it write the same frame again (unless
the run is cut off there by the iteration bound); any other byte or a timeout
makes it return `TargetIllegalResponse` with nothing written after that
frame.  `CODE_EOT` is written only once all blocks are acknowledged and is the
last buffer written; the function returns `NoError` exactly when it wrote
`CODE_EOT` and the reply to it was `CODE_ACK`, and `TargetIllegalResponse` on
any other reply to it; it returns nothing else.  The function returns unless
the last `fuel` replies were all `CODE_NAK`. -/
theorem transmit_file_replies (fuel : Nat) (s : Host) (data : List Nat) :
    (0 < fuel →
        ∃ w0, (writes s (transmit_file fuel s (readable data)).2)[0]? = some w0
          ∧ ((data = [] ∧ w0 = [CODE_EOT])
            ∨ (data ≠ [] ∧ w0 = send_buf 1 (payload data 0))))
      ∧ ((transmit_file fuel s (readable data)).1 = some ErrorCode.NoError ↔
          ∃ k, (writes s (transmit_file fuel s (readable data)).2)[k]? = some [CODE_EOT] ∧ s.rx (s.rpos + k) = some CODE_ACK)
      ∧ (∀ e, (transmit_file fuel s (readable data)).1 = some e →
          e = ErrorCode.NoError ∨ e = ErrorCode.TargetIllegalResponse)
      ∧ ((transmit_file fuel s (readable data)).1 = none →
          fuel ≤ (writes s (transmit_file fuel s (readable data)).2).length
            ∧ ∀ k, (writes s (transmit_file fuel s (readable data)).2).length - fuel ≤ k → k < (writes s (transmit_file fuel s (readable data)).2).length →
                s.rx (s.rpos + k) = some CODE_NAK)
      ∧ ∀ j w, (writes s (transmit_file fuel s (readable data)).2)[j]? = some w →
          (w ≠ [CODE_EOT] →
            (s.rx (s.rpos + j) = some CODE_ACK →
              (∃ w2, (writes s (transmit_file fuel s (readable data)).2)[j + 1]? = some w2
              ∧ ((acks s.rx s.rpos j + 1 = block_total data.length ∧ w2 = [CODE_EOT])
                ∨ (acks s.rx s.rpos j + 1 < block_total data.length
                  ∧ w2 = send_buf ((acks s.rx s.rpos j + 2) % 256)
                      (payload data (acks s.rx s.rpos j + 1))))))
            ∧ (s.rx (s.rpos + j) = some CODE_NAK →
              ((writes s (transmit_file fuel s (readable data)).2)[j + 1]? = some w
                ∨ ((writes s (transmit_file fuel s (readable data)).2).length = j + 1 ∧ (transmit_file fuel s (readable data)).1 = none)))
            ∧ (s.rx (s.rpos + j) ≠ some CODE_ACK → s.rx (s.rpos + j) ≠ some CODE_NAK →
              ((transmit_file fuel s (readable data)).1 = some ErrorCode.TargetIllegalResponse
                ∧ (writes s (transmit_file fuel s (readable data)).2).length = j + 1)))
          ∧ (w = [CODE_EOT] →
            ((writes s (transmit_file fuel s (readable data)).2).length = j + 1
            ∧ acks s.rx s.rpos j = block_total data.length
            ∧ (transmit_file fuel s (readable data)).1 = some (if s.rx (s.rpos + j) = some CODE_ACK
                then ErrorCode.NoError else ErrorCode.TargetIllegalResponse))) := by
  obtain ⟨n, hfr, hans, hfuel, hend⟩ := transmit_file_trace fuel s data
  refine ⟨?_, ?_, ?_, ?_, ?_⟩
  · intro hf
    by_cases hd : data = []
    · have hN : block_total data.length = 0 := by rw [hd]; rfl
      have hn0 : n = 0 := by
        by_contra hc
        have := (hfr 0 (by omega)).2
        omega
      subst hn0
      rcases hend with ⟨_, _, _, h1, _⟩ | ⟨_, _, _, h1, _⟩ | ⟨_, _, he, _⟩
      · omega
      · omega
      · exact ⟨_, he, Or.inl ⟨hd, rfl⟩⟩
    · have hN := block_total_pos data hd
      have hn0 : 0 < n := by
        rcases hend with ⟨_, _, _, h1, _⟩ | ⟨_, _, _, h1, _⟩ | ⟨_, _, _, _, ha⟩
        · omega
        · exact h1
        · by_contra hc
          have : n = 0 := by omega
          subst this
          have e : acks s.rx s.rpos 0 = 0 := rfl
          omega
      exact ⟨_, (hfr 0 hn0).1, Or.inr ⟨hd, rfl⟩⟩
  · constructor
    · intro hr
      rcases hend with ⟨h1, _⟩ | ⟨h1, _⟩ | ⟨h1, _, he, _⟩
      · rw [h1] at hr; cases hr
      · rw [h1] at hr; cases hr
      · refine ⟨n, he, ?_⟩
        by_contra hc
        rw [h1, if_neg hc] at hr
        cases hr
    · rintro ⟨k, hk, hack⟩
      rcases writes_cases fuel s data k _ hk with ⟨_, _, _, h4⟩ | ⟨h, _⟩
      · rw [h4, if_pos hack]
      · exact absurd h.symm (send_buf_ne_EOT _ _)
  · intro e he
    rcases hend with ⟨h1, _⟩ | ⟨h1, _⟩ | ⟨h1, _⟩
    · rw [h1] at he; cases he
    · rw [h1] at he; cases he; exact Or.inr rfl
    · rw [h1] at he
      cases he
      split
      · exact Or.inl rfl
      · exact Or.inr rfl
  · intro hr
    rcases hend with ⟨_, hl, _, hf, hnak⟩ | ⟨h1, _⟩ | ⟨h1, _⟩
    · rw [hl]
      exact ⟨hf, hnak⟩
    · rw [h1] at hr; cases hr
    · rw [h1] at hr; cases hr
  · intro j w hw
    refine ⟨?_, ?_⟩
    · intro hd
      have hstep := writes_step fuel s data j w hw hd
      refine ⟨?_, ?_, ?_⟩
      · intro hack
        rcases hstep with ⟨_, w2, hw2⟩ | ⟨hn, _⟩ | ⟨hna, _⟩
        · refine ⟨w2, hw2, ?_⟩
          have hacks : acks s.rx s.rpos (j + 1) = acks s.rx s.rpos j + 1 := by
            rw [acks, if_pos hack]
          rcases writes_cases fuel s data (j + 1) w2 hw2 with ⟨e1, _, e3, _⟩ | ⟨e1, e2⟩
          · exact Or.inl ⟨by rw [← hacks]; exact e3, e1⟩
          · refine Or.inr ⟨by rw [← hacks]; exact e2, ?_⟩
            rw [e1, hacks]
            congr 2
            omega
        · rw [hn] at hack
          exact absurd hack NAK_ne_ACK
        · exact absurd hack hna
      · intro hnak
        rcases hstep with ⟨ha, _⟩ | ⟨_, h⟩ | ⟨_, hnn, _⟩
        · rw [hnak] at ha
          exact absurd ha NAK_ne_ACK
        · exact h
        · exact absurd hnak hnn
      · intro hna hnn
        rcases hstep with ⟨ha, _⟩ | ⟨hn, _⟩ | ⟨_, _, hl, hr⟩
        · exact absurd ha hna
        · exact absurd hn hnn
        · exact ⟨hr, hl⟩
    · intro he
      rcases writes_cases fuel s data j w hw with ⟨_, h2, h3, h4⟩ | ⟨h, _⟩
      · exact ⟨h2, h3, h4⟩
      · rw [he] at h
        exact absurd h.symm (send_buf_ne_EOT _ _)

set_option maxRecDepth 100000 in
theorem transmit_file_replies_witness :
    ((0 < 2 ∧ (writes nak_once_port (transmit_file 2 nak_once_port (readable sample_300)).2)[0]? = some (send_buf 1 (payload sample_300 0)))
      ∧ ∃ w0, (writes nak_once_port (transmit_file 2 nak_once_port (readable sample_300)).2)[0]? = some w0
          ∧ ((sample_300 = [] ∧ w0 = [CODE_EOT])
            ∨ (sample_300 ≠ [] ∧ w0 = send_buf 1 (payload sample_300 0))))
    ∧ (((writes nak_once_port (transmit_file 2 nak_once_port (readable sample_300)).2)[0]? = some (send_buf 1 (payload sample_300 0)) ∧ (send_buf 1 (payload sample_300 0)) ≠ [CODE_EOT]
        ∧ nak_once_port.rx (nak_once_port.rpos + 0) = some CODE_ACK ∧ (writes nak_once_port (transmit_file 2 nak_once_port (readable sample_300)).2)[1]? = some (send_buf 2 (payload sample_300 1)))
      ∧ (∃ w2, (writes nak_once_port (transmit_file 2 nak_once_port (readable sample_300)).2)[0 + 1]? = some w2
              ∧ ((acks nak_once_port.rx nak_once_port.rpos 0 + 1 = block_total sample_300.length ∧ w2 = [CODE_EOT])
                ∨ (acks nak_once_port.rx nak_once_port.rpos 0 + 1 < block_total sample_300.length
                  ∧ w2 = send_buf ((acks nak_once_port.rx nak_once_port.rpos 0 + 2) % 256)
                      (payload sample_300 (acks nak_once_port.rx nak_once_port.rpos 0 + 1))))))
    ∧ (((writes nak_once_port (transmit_file 2 nak_once_port (readable sample_300)).2)[1]? = some (send_buf 2 (payload sample_300 1)) ∧ (send_buf 2 (payload sample_300 1)) ≠ [CODE_EOT]
        ∧ nak_once_port.rx (nak_once_port.rpos + 1) = some CODE_NAK)
      ∧ ((writes nak_once_port (transmit_file 2 nak_once_port (readable sample_300)).2)[1 + 1]? = some (send_buf 2 (payload sample_300 1))
                ∨ ((writes nak_once_port (transmit_file 2 nak_once_port (readable sample_300)).2).length = 1 + 1 ∧ (transmit_file 2 nak_once_port (readable sample_300)).1 = none)))
    ∧ (((writes nak_once_port (transmit_file 2 nak_once_port (readable sample_300)).2)[3]? = some (send_buf 3 (payload sample_300 2)) ∧ (send_buf 3 (payload sample_300 2)) ≠ [CODE_EOT]
        ∧ nak_once_port.rx (nak_once_port.rpos + 3) = some CODE_ACK)
      ∧ (∃ w2, (writes nak_once_port (transmit_file 2 nak_once_port (readable sample_300)).2)[3 + 1]? = some w2
              ∧ ((acks nak_once_port.rx nak_once_port.rpos 3 + 1 = block_total sample_300.length ∧ w2 = [CODE_EOT])
                ∨ (acks nak_once_port.rx nak_once_port.rpos 3 + 1 < block_total sample_300.length
                  ∧ w2 = send_buf ((acks nak_once_port.rx nak_once_port.rpos 3 + 2) % 256)
                      (payload sample_300 (acks nak_once_port.rx nak_once_port.rpos 3 + 1))))))
    ∧ (((writes nak_once_port (transmit_file 2 nak_once_port (readable sample_300)).2)[4]? = some [CODE_EOT] ∧ nak_once_port.rx (nak_once_port.rpos + 4) = some CODE_ACK)
      ∧ ((writes nak_once_port (transmit_file 2 nak_once_port (readable sample_300)).2).length = 4 + 1
            ∧ acks nak_once_port.rx nak_once_port.rpos 4 = block_total sample_300.length
            ∧ (transmit_file 2 nak_once_port (readable sample_300)).1 = some (if nak_once_port.rx (nak_once_port.rpos + 4) = some CODE_ACK
                then ErrorCode.NoError else ErrorCode.TargetIllegalResponse))
      ∧ ((transmit_file 2 nak_once_port (readable sample_300)).1 = some ErrorCode.NoError ↔
          ∃ k, (writes nak_once_port (transmit_file 2 nak_once_port (readable sample_300)).2)[k]? = some [CODE_EOT] ∧ nak_once_port.rx (nak_once_port.rpos + k) = some CODE_ACK)
      ∧ (transmit_file 2 nak_once_port (readable sample_300)).1 = some ErrorCode.NoError)
    ∧ (((writes (ack_then_silent 1) (transmit_file 1 (ack_then_silent 1) (readable sample_300)).2)[1]? = some (send_buf 2 (payload sample_300 1)) ∧ (send_buf 2 (payload sample_300 1)) ≠ [CODE_EOT]
        ∧ (ack_then_silent 1).rx ((ack_then_silent 1).rpos + 1) = none)
      ∧ ((transmit_file 1 (ack_then_silent 1) (readable sample_300)).1 = some ErrorCode.TargetIllegalResponse
                ∧ (writes (ack_then_silent 1) (transmit_file 1 (ack_then_silent 1) (readable sample_300)).2).length = 1 + 1)) :=
  ⟨⟨⟨by decide, by decide⟩, (transmit_file_replies 2 nak_once_port sample_300).1 (by decide)⟩,
    ⟨⟨by decide, by decide, by decide, by decide⟩,
      (((transmit_file_replies 2 nak_once_port sample_300).2.2.2.2 0 (send_buf 1 (payload sample_300 0)) (by decide)).1
        (by decide)).1 (by decide)⟩,
    ⟨⟨by decide, by decide, by decide⟩,
      (((transmit_file_replies 2 nak_once_port sample_300).2.2.2.2 1 (send_buf 2 (payload sample_300 1)) (by decide)).1
        (by decide)).2.1 (by decide)⟩,
    ⟨⟨by decide, by decide, by decide⟩,
      (((transmit_file_replies 2 nak_once_port sample_300).2.2.2.2 3 (send_buf 3 (payload sample_300 2)) (by decide)).1
        (by decide)).1 (by decide)⟩,
    ⟨⟨by decide, by decide⟩,
      ((transmit_file_replies 2 nak_once_port sample_300).2.2.2.2 4 [CODE_EOT] (by decide)).2 rfl,
      (transmit_file_replies 2 nak_once_port sample_300).2.1,
      (transmit_file_replies 2 nak_once_port sample_300).2.1.2 ⟨4, by decide, by decide⟩⟩,
    ⟨⟨by decide, by decide, by decide⟩,
      (((transmit_file_replies 1 (ack_then_silent 1) sample_300).2.2.2.2 1 (send_buf 2 (payload sample_300 1)) (by decide)).1
        (by decide)).2.2 (by decide) (by decide)⟩⟩

/-- C2: every buffer `transmit_file` writes to the serial port is the single
byte `CODE_EOT` or a data frame of exactly 132 bytes: byte 0 is `CODE_SOH`,
byte 1 the block number `b < 256`, byte 2 its complement (so that the two add
up to `0xFF` and their exclusive or is `0xFF`), bytes 3..130 the 128 data bytes
of a block of the file, byte 131 the sum of these modulo 256.  This holds for
first transmissions and retransmissions, full and padded blocks alike. -/
theorem transmit_file_frame_layout (fuel : Nat) (s : Host) (file : Option HostFile)
    (w : List Nat) (hw : w ∈ writes s (transmit_file fuel s file).2) :
    w = [CODE_EOT] ∨
      ∃ f k b data, file = some f ∧ k < block_total f.data.length
        ∧ b = (1 + k) % 256 ∧ b < 256
        ∧ data = payload f.data k ∧ data.length = 128
        ∧ w = [CODE_SOH, b, bnot8 b] ++ data ++ [data.sum % 256]
        ∧ w.length = 132
        ∧ w[0]? = some 0x01 ∧ w[1]? = some b ∧ w[2]? = some (bnot8 b)
        ∧ b + bnot8 b = 0xFF ∧ b ^^^ bnot8 b = 0xFF
        ∧ frame_payload w = data ∧ w[131]? = some (data.sum % 256) := by
  rcases readable_or_silent fuel s file with ⟨f, hf, hr⟩ | hsil
  · rw [hr] at hw
    obtain ⟨j, hj⟩ := List.mem_iff_getElem?.1 hw
    rcases writes_cases fuel s f.data j w hj with ⟨h, _⟩ | ⟨h, hk⟩
    · exact Or.inl h
    · right
      have hlen := payload_length f.data (acks s.rx s.rpos j)
      have hb : (1 + acks s.rx s.rpos j) % 256 < 256 := Nat.mod_lt _ (by decide)
      obtain ⟨hs, hx⟩ := bnot8_spec _ hb
      refine ⟨f, acks s.rx s.rpos j, _, _, hf, hk, rfl, hb, rfl, hlen, ?_, ?_, ?_, ?_,
        ?_, hs, hx, ?_, ?_⟩
      · rw [h, send_buf, CALC_CHECKSUM_block _ hlen]
      · rw [h, send_buf_length, hlen]; rfl
      · rw [h]; simp [send_buf, CODE_SOH]
      · rw [h]; simp [send_buf]
      · rw [h]; simp [send_buf]
      · rw [h]; exact frame_payload_send_buf _ _ hlen
      · rw [h]; exact send_buf_last _ _ hlen
  · rw [hsil] at hw
    simp at hw

set_option maxRecDepth 100000 in
theorem transmit_file_frame_layout_witness :
    send_buf 1 (payload [5] 0) ∈ writes ack_port (transmit_file 1 ack_port (readable [5])).2
      ∧ (send_buf 1 (payload [5] 0) = [CODE_EOT] ∨
        ∃ f k b data, readable [5] = some f ∧ k < block_total f.data.length
          ∧ b = (1 + k) % 256 ∧ b < 256
          ∧ data = payload f.data k ∧ data.length = 128
          ∧ send_buf 1 (payload [5] 0) = [CODE_SOH, b, bnot8 b] ++ data ++ [data.sum % 256]
          ∧ (send_buf 1 (payload [5] 0)).length = 132
          ∧ (send_buf 1 (payload [5] 0))[0]? = some 0x01
          ∧ (send_buf 1 (payload [5] 0))[1]? = some b
          ∧ (send_buf 1 (payload [5] 0))[2]? = some (bnot8 b)
          ∧ b + bnot8 b = 0xFF ∧ b ^^^ bnot8 b = 0xFF
          ∧ frame_payload (send_buf 1 (payload [5] 0)) = data
          ∧ (send_buf 1 (payload [5] 0))[131]? = some (data.sum % 256)) :=
  ⟨by decide,
    transmit_file_frame_layout 1 ack_port (readable [5]) (send_buf 1 (payload [5] 0))
      (by decide)⟩

/-! ## A target that acknowledges everything -/

theorem transmit_file_all_ack (fuel : Nat) (s : Host) (data : List Nat) (hf : 0 < fuel)
    (hack : ∀ k, s.rx (s.rpos + k) = some CODE_ACK) :
    (transmit_file fuel s (readable data)).1 = some ErrorCode.NoError
      ∧ writes s (transmit_file fuel s (readable data)).2
          = (List.range (block_total data.length)).map
              (fun k => send_buf ((1 + k) % 256) (payload data k)) ++ [[CODE_EOT]] := by
  obtain ⟨n, hfr, _, _, hend⟩ := transmit_file_trace fuel s data
  have hacks : ∀ j, acks s.rx s.rpos j = j := fun j => acks_eq_self _ _ _ (fun k _ => hack k)
  rcases hend with ⟨_, _, _, h1, h2⟩ | ⟨_, _, _, _, h1, _⟩ | ⟨hr, hl, he, _, ha⟩
  · have := h2 (n - 1) (by omega) (by omega)
    rw [hack] at this
    exact absurd this.symm NAK_ne_ACK
  · exact absurd (hack _) h1
  · rw [hacks] at ha
    rw [← ha]
    refine ⟨by rw [hr, if_pos (hack _)], ?_⟩
    apply List.ext_getElem?
    intro i
    by_cases hi : i < n
    · rw [(hfr i hi).1, hacks, List.getElem?_append_left (by simpa using hi)]
      simp [hi]
    · by_cases hin : i = n
      · subst hin
        rw [he, List.getElem?_append_right (by simp)]
        simp
      · rw [List.getElem?_eq_none (by omega), List.getElem?_eq_none (by simp; omega)]

theorem payload_full (data : List Nat) (k : Nat) (h : 128 * (k + 1) ≤ data.length) :
    payload data k = (data.drop (128 * k)).take 128 := by
  have hl : ((data.drop (128 * k)).take 128).length = 128 := by
    rw [List.length_take, List.length_drop]; omega
  simp only [payload, blk, hl, Nat.sub_self, List.replicate_zero, List.append_nil]

theorem payload_short (data : List Nat) (k : Nat) (h : data.length ≤ 128 * (k + 1)) :
    payload data k = data.drop (128 * k)
      ++ List.replicate (128 - (data.length - 128 * k)) CODE_EOF := by
  have hl : (data.drop (128 * k)).length ≤ 128 := by
    rw [List.length_drop]; omega
  simp only [payload, blk]
  rw [List.take_of_length_le hl, List.length_drop]

theorem payload_succ (data : List Nat) (k : Nat) :
    payload data (k + 1) = payload (data.drop 128) k := by
  simp only [payload, blk, List.drop_drop]
  have e : 128 + 128 * k = 128 * (k + 1) := by omega
  rw [e]

theorem join_payload (N : Nat) : ∀ data : List Nat, data.length ≤ 128 * N →
    (((List.range N).map (payload data)).flatten).take data.length = data := by
  induction N with
  | zero =>
    intro data h
    have : data = [] := List.eq_nil_of_length_eq_zero (by omega)
    subst this
    rfl
  | succ N ih =>
    intro data h
    have hmap : (List.range (N + 1)).map (payload data)
        = payload data 0 :: (List.range N).map (payload (data.drop 128)) := by
      rw [List.range_succ_eq_map, List.map_cons, List.map_map]
      congr 1
      apply List.map_congr_left
      intro k _
      exact payload_succ data k
    rw [hmap, List.flatten_cons]
    by_cases hs : data.length ≤ 128
    · rw [payload_short data 0 (by omega)]
      simp only [Nat.mul_zero, List.drop_zero, List.append_assoc]
      exact List.take_left' rfl
    · rw [payload_full data 0 (by omega)]
      simp only [Nat.mul_zero, List.drop_zero]
      have hl : (data.take 128).length = 128 := by rw [List.length_take]; omega
      have hd : (data.drop 128).length = data.length - 128 := List.length_drop _ _
      rw [List.take_append_eq_append_take, hl, List.take_of_length_le (by omega), ← hd,
        ih (data.drop 128) (by omega), List.take_append_drop]

theorem le_block_total (n : Nat) : n ≤ 128 * block_total n := by
  simp only [block_total, blk]
  split <;> omega

theorem blocks_split (data : List Nat) :
    (List.range (block_total data.length)).map
        (fun k => send_buf ((1 + k) % 256) (payload data k))
      = (List.range (data.length / 128)).map
            (fun k => send_buf ((k + 1) % 256) ((data.drop (128 * k)).take 128))
          ++ (if 0 < data.length % 128 then
                [send_buf ((data.length / 128 + 1) % 256)
                  (data.drop (128 * (data.length / 128))
                    ++ List.replicate (128 - data.length % 128) CODE_EOF)]
              else []) := by
  have hfull : (List.range (data.length / 128)).map
        (fun k => send_buf ((1 + k) % 256) (payload data k))
      = (List.range (data.length / 128)).map
        (fun k => send_buf ((k + 1) % 256) ((data.drop (128 * k)).take 128)) := by
    apply List.map_congr_left
    intro k hk
    have hk1 : k < data.length / 128 := List.mem_range.1 hk
    rw [payload_full data k (by omega), Nat.add_comm]
  by_cases hrem : 0 < data.length % 128
  · have hN : block_total data.length = data.length / 128 + 1 := by
      simp only [block_total, blk, if_pos hrem]
    have hsub : data.length - 128 * (data.length / 128) = data.length % 128 := by omega
    rw [hN, List.range_succ, List.map_append, hfull, if_pos hrem, List.map_singleton,
      payload_short data _ (by omega), hsub, Nat.add_comm 1]
  · have hN : block_total data.length = data.length / 128 := by
      simp only [block_total, blk, if_neg hrem, Nat.add_zero]
    rw [hN, hfull, if_neg hrem, List.append_nil]

theorem writes_300 (fuel : Nat) (s : Host) (data : List Nat) (hf : 0 < fuel)
    (hack : ∀ k, s.rx (s.rpos + k) = some CODE_ACK) (hlen : data.length = 300) :
    writes s (transmit_file fuel s (readable data)).2
        = [send_buf 1 (data.take 128), send_buf 2 ((data.drop 128).take 128),
            send_buf 3 (data.drop 256 ++ List.replicate 84 CODE_EOF), [CODE_EOT]] := by
  rw [(transmit_file_all_ack fuel s data hf hack).2, blocks_split, hlen]
  simp [List.range_succ]

/-- C6 (as amended): when the target acknowledges every frame and the
`CODE_EOT`, `transmit_file` on a file of 300 bytes writes two full blocks
numbered 1 and 2, then a block numbered 3 whose data are the last 44 bytes of
the file followed by 84 bytes `CODE_EOF`, then `CODE_EOT`, and returns
`NoError`, which is exit code 0. -/
theorem transmit_file_300 (fuel : Nat) (s : Host) (data : List Nat) (hf : 0 < fuel)
    (hack : ∀ k, s.rx (s.rpos + k) = some CODE_ACK) (hlen : data.length = 300) :
    writes s (transmit_file fuel s (readable data)).2
        = [send_buf 1 (data.take 128), send_buf 2 ((data.drop 128).take 128),
            send_buf 3 (data.drop 256 ++ List.replicate 84 CODE_EOF), [CODE_EOT]]
      ∧ (data.drop 256).length = 44
      ∧ (transmit_file fuel s (readable data)).1 = some ErrorCode.NoError
      ∧ ErrorCode.exit_code ErrorCode.NoError = 0 := by
  exact ⟨writes_300 fuel s data hf hack hlen, by rw [List.length_drop, hlen],
    (transmit_file_all_ack fuel s data hf hack).1, rfl⟩

set_option maxRecDepth 100000 in
theorem transmit_file_300_witness :
    (0 < 1 ∧ (∀ k, ack_port.rx (ack_port.rpos + k) = some CODE_ACK)
      ∧ (List.replicate 300 7).length = 300)
    ∧ (writes ack_port (transmit_file 1 ack_port (readable (List.replicate 300 7))).2
        = [send_buf 1 ((List.replicate 300 7).take 128),
            send_buf 2 (((List.replicate 300 7).drop 128).take 128),
            send_buf 3 ((List.replicate 300 7).drop 256 ++ List.replicate 84 CODE_EOF),
            [CODE_EOT]]
      ∧ ((List.replicate 300 7).drop 256).length = 44
      ∧ (transmit_file 1 ack_port (readable (List.replicate 300 7))).1
          = some ErrorCode.NoError
      ∧ ErrorCode.exit_code ErrorCode.NoError = 0) :=
  ⟨⟨by decide, fun _ => rfl, by decide⟩,
    transmit_file_300 1 ack_port (List.replicate 300 7) (by decide) (fun _ => rfl)
      (by decide)⟩

/-- C6 (as stated) fails: on a file of 300 bytes 7 sent to a target that
acknowledges everything, the third frame does not end in 172 data bytes
`CODE_EOF` before its checksum; it has 128 data bytes, 44 from the file and
84 bytes `CODE_EOF`. -/
theorem transmit_file_300_pad_is_not_172 :
    (¬ ∃ d1 d2 pre,
        writes ack_port (transmit_file 1 ack_port (readable (List.replicate 300 7))).2
          = [send_buf 1 d1, send_buf 2 d2,
              send_buf 3 (pre ++ List.replicate 172 CODE_EOF), [CODE_EOT]])
      ∧ ∃ w, (writes ack_port
            (transmit_file 1 ack_port (readable (List.replicate 300 7))).2)[2]? = some w
          ∧ frame_payload w = List.replicate 44 7 ++ List.replicate 84 CODE_EOF := by
  have h2 := writes_300 1 ack_port (List.replicate 300 7) (by decide) (fun _ => rfl)
    (List.length_replicate _ _)
  have hd : (List.replicate 300 7).drop 256 = List.replicate 44 7 := by
    rw [List.drop_replicate]
  have h3 : (writes ack_port
      (transmit_file 1 ack_port (readable (List.replicate 300 7))).2)[2]?
        = some (send_buf 3 (List.replicate 44 7 ++ List.replicate 84 CODE_EOF)) := by
    rw [h2, hd]
    rfl
  constructor
  · rintro ⟨d1, d2, pre, h⟩
    rw [h] at h3
    have e : send_buf 3 (pre ++ List.replicate 172 CODE_EOF)
        = send_buf 3 (List.replicate 44 7 ++ List.replicate 84 CODE_EOF) :=
      Option.some.inj h3
    have := congrArg List.length e
    rw [send_buf_length, send_buf_length] at this
    simp only [List.length_append, List.length_replicate] at this
    omega
  · exact ⟨_, h3, frame_payload_send_buf _ _
      (by simp only [List.length_append, List.length_replicate])⟩

/-! ## Progress marks and scenario S5 -/

theorem mark_eq (r : Option Nat) :
    mark r = Out.ch (if r = some CODE_ACK then '.' else 'x') := by
  simp only [mark, getD_eq_ACK]

theorem countP_prefix {α : Type} (p : α → Bool) (l : List α) (n : Nat)
    (h1 : ∀ j, j < n → ∃ w, l[j]? = some w ∧ p w = true)
    (h2 : ∀ j w, l[j]? = some w → p w = true → j < n) : l.countP p = n := by
  have hn : n ≤ l.length := by
    by_contra hc
    obtain ⟨w, hw, _⟩ := h1 l.length (by omega)
    have := (List.getElem?_eq_some_iff.1 hw).1
    omega
  rw [← List.take_append_drop n l, List.countP_append]
  have e1 : (l.take n).countP p = n := by
    have : (l.take n).countP p = (l.take n).length := by
      rw [List.countP_eq_length]
      intro a ha
      obtain ⟨j, hj⟩ := List.mem_iff_getElem?.1 ha
      have hjn : j < n := by
        have := (List.getElem?_eq_some_iff.1 hj).1
        simp at this
        omega
      rw [List.getElem?_take_of_lt hjn] at hj
      obtain ⟨w, hw, hp⟩ := h1 j hjn
      rw [hw] at hj
      cases hj
      exact hp
    rw [this, List.length_take]
    omega
  have e2 : (l.drop n).countP p = 0 := by
    rw [List.countP_eq_zero]
    intro a ha hp
    obtain ⟨j, hj⟩ := List.mem_iff_getElem?.1 ha
    rw [List.getElem?_drop] at hj
    have := h2 _ _ hj hp
    omega
  rw [e1, e2]
  rfl

theorem stderr_marks (fuel : Nat) (s : Host) (data : List Nat) :
    ∃ n, (transmit_file fuel s (readable data)).2.stderr
        = s.stderr ++ [Out.banner (data.length / 128) (data.length % 128)]
          ++ (List.range n).map
              (fun j => Out.ch (if s.rx (s.rpos + j) = some CODE_ACK then '.' else 'x'))
          ++ (if (transmit_file fuel s (readable data)).1 = none then [] else [Out.ch '\n'])
      ∧ (writes s (transmit_file fuel s (readable data)).2).countP
          (fun w => decide (w ≠ [CODE_EOT])) = n
      ∧ (∀ j, j < n → ∃ w, (writes s (transmit_file fuel s (readable data)).2)[j]? = some w
          ∧ w ≠ [CODE_EOT])
      ∧ ∀ j w, (writes s (transmit_file fuel s (readable data)).2)[j]? = some w →
          (w ≠ [CODE_EOT] ↔ j < n) := by
  obtain ⟨n, hfr, _, _, hend⟩ := transmit_file_trace fuel s data
  have hm : marks s.rx s.rpos n = (List.range n).map
      (fun j => Out.ch (if s.rx (s.rpos + j) = some CODE_ACK then '.' else 'x')) := by
    simp only [marks, mark_eq]
  have hs : (started s data).stderr
      = s.stderr ++ [Out.banner (data.length / 128) (data.length % 128)] := rfl
  have hlt : ∀ j w, (writes s (transmit_file fuel s (readable data)).2)[j]? = some w →
      j < n → w ≠ [CODE_EOT] := by
    intro j w hw hj
    rw [(hfr j hj).1] at hw
    rw [← Option.some.inj hw]
    exact send_buf_ne_EOT _ _
  have hdata : ∀ j, j < n →
      ∃ w, (writes s (transmit_file fuel s (readable data)).2)[j]? = some w
        ∧ w ≠ [CODE_EOT] :=
    fun j hj => ⟨_, (hfr j hj).1, send_buf_ne_EOT _ _⟩
  have hiff : ∀ j w, (writes s (transmit_file fuel s (readable data)).2)[j]? = some w →
      (w ≠ [CODE_EOT] ↔ j < n) := by
    intro j w hw
    refine ⟨fun hne => ?_, hlt j w hw⟩
    have hj := (List.getElem?_eq_some_iff.1 hw).1
    rcases hend with ⟨_, hl, _⟩ | ⟨_, hl, _⟩ | ⟨_, hl, he, _⟩
    · omega
    · omega
    · by_contra hc
      have : j = n := by omega
      subst this
      rw [he] at hw
      exact hne (Option.some.inj hw).symm
  refine ⟨n, ?_, ?_, hdata, hiff⟩
  · rcases hend with ⟨hr, _, he, _⟩ | ⟨hr, _, he, _⟩ | ⟨hr, _, _, he, _⟩
    · rw [he, hr, hs, hm]; simp
    · rw [he, hr, hs, hm]; simp
    · rw [he, hr, hs, hm]; simp
  · apply countP_prefix
    · intro j hj
      obtain ⟨w, hw, hne⟩ := hdata j hj
      exact ⟨w, hw, by simpa using hne⟩
    · intro j w hw hp
      exact (hiff j w hw).1 (by simpa using hp)

theorem progress_s5 (fuel : Nat) (s : Host) (data : List Nat) (hf : 2 ≤ fuel)
    (h3 : block_total data.length = 3)
    (r0 : s.rx (s.rpos + 0) = some CODE_ACK) (r1 : s.rx (s.rpos + 1) = some CODE_NAK)
    (r2 : s.rx (s.rpos + 2) = some CODE_ACK) (r3 : s.rx (s.rpos + 3) = some CODE_ACK)
    (r4 : s.rx (s.rpos + 4) = some CODE_ACK) :
    (transmit_file fuel s (readable data)).1 = some ErrorCode.NoError
      ∧ (transmit_file fuel s (readable data)).2.stderr
          = s.stderr ++ [Out.banner (data.length / 128) (data.length % 128),
              Out.ch '.', Out.ch 'x', Out.ch '.', Out.ch '.', Out.ch '\n'] := by
  obtain ⟨n, hfr, _, _, hend⟩ := transmit_file_trace fuel s data
  have hne : (some CODE_NAK : Option Nat) ≠ some CODE_ACK := NAK_ne_ACK
  have a0 : acks s.rx s.rpos 0 = 0 := rfl
  have r0z : s.rx s.rpos = some CODE_ACK := r0
  have a1 : acks s.rx s.rpos 1 = 1 := by simp [acks, r0z]
  have a2 : acks s.rx s.rpos 2 = 1 := by simp [acks, r0z, r1, hne]
  have a3 : acks s.rx s.rpos 3 = 2 := by simp [acks, r0z, r1, r2, hne]
  have a4 : acks s.rx s.rpos 4 = 3 := by simp [acks, r0z, r1, r2, r3, hne]
  have hn4 : n ≤ 4 := by
    by_contra hc
    have := (hfr 4 (by omega)).2
    omega
  have hs : (started s data).stderr
      = s.stderr ++ [Out.banner (data.length / 128) (data.length % 128)] := rfl
  rcases hend with ⟨_, _, _, hfl, hnak⟩ | ⟨_, _, _, hpos, hna, hnn⟩ | ⟨hr, _, _, he, ha⟩
  · exfalso
    obtain rfl | rfl | rfl : n = 2 ∨ n = 3 ∨ n = 4 := by omega
    · have e := hnak 0 (by omega) (by omega)
      rw [r0] at e; exact absurd e.symm hne
    · have e := hnak 2 (by omega) (by omega)
      rw [r2] at e; exact absurd e.symm hne
    · have e := hnak 3 (by omega) (by omega)
      rw [r3] at e; exact absurd e.symm hne
  · exfalso
    obtain rfl | rfl | rfl | rfl : n = 1 ∨ n = 2 ∨ n = 3 ∨ n = 4 := by omega
    · exact hna r0
    · exact hnn r1
    · exact hna r2
    · exact hna r3
  · have : n = 4 := by
      rw [h3] at ha
      by_contra hc
      obtain rfl | rfl | rfl | rfl : n = 0 ∨ n = 1 ∨ n = 2 ∨ n = 3 := by omega
      all_goals omega
    subst this
    refine ⟨by rw [hr, if_pos r4], ?_⟩
    rw [he, hs]
    simp [marks, mark_eq, List.range_succ, r0z, r1, r2, r3, hne]

/-- C7 (as amended): `transmit_file` prints one progress mark per frame it
writes, `.` when the reply to that frame is `CODE_ACK` and `x` otherwise,
after the banner and before the final newline: the number `n` of marks is
the number of data frames written, which are the first `n` buffers written,
whether the run ends with `CODE_EOT`, is aborted or is still retransmitting.
In scenario S5 (three
blocks, `CODE_NAK` once in reply to block 2, `CODE_ACK` to everything else)
the marks are `.x..` and the result is `NoError`. -/
theorem transmit_file_progress (fuel : Nat) (s : Host) (data : List Nat) :
    (∃ n, (transmit_file fuel s (readable data)).2.stderr
          = s.stderr ++ [Out.banner (data.length / 128) (data.length % 128)]
            ++ (List.range n).map
                (fun j => Out.ch (if s.rx (s.rpos + j) = some CODE_ACK then '.' else 'x'))
            ++ (if (transmit_file fuel s (readable data)).1 = none then []
                else [Out.ch '\n'])
        ∧ (writes s (transmit_file fuel s (readable data)).2).countP
            (fun w => decide (w ≠ [CODE_EOT])) = n
        ∧ (∀ j, j < n →
            ∃ w, (writes s (transmit_file fuel s (readable data)).2)[j]? = some w
              ∧ w ≠ [CODE_EOT])
        ∧ ∀ j w, (writes s (transmit_file fuel s (readable data)).2)[j]? = some w →
            (w ≠ [CODE_EOT] ↔ j < n))
      ∧ (2 ≤ fuel → block_total data.length = 3 →
          s.rx (s.rpos + 0) = some CODE_ACK → s.rx (s.rpos + 1) = some CODE_NAK →
          s.rx (s.rpos + 2) = some CODE_ACK → s.rx (s.rpos + 3) = some CODE_ACK →
          s.rx (s.rpos + 4) = some CODE_ACK →
          (transmit_file fuel s (readable data)).1 = some ErrorCode.NoError
            ∧ (transmit_file fuel s (readable data)).2.stderr
                = s.stderr ++ [Out.banner (data.length / 128) (data.length % 128),
                    Out.ch '.', Out.ch 'x', Out.ch '.', Out.ch '.', Out.ch '\n']) :=
  ⟨stderr_marks fuel s data, progress_s5 fuel s data⟩

set_option maxRecDepth 100000 in
theorem transmit_file_progress_witness :
    (2 ≤ 2 ∧ block_total (List.replicate 300 7).length = 3
      ∧ nak_once_port.rx (nak_once_port.rpos + 0) = some CODE_ACK
      ∧ nak_once_port.rx (nak_once_port.rpos + 1) = some CODE_NAK
      ∧ nak_once_port.rx (nak_once_port.rpos + 2) = some CODE_ACK
      ∧ nak_once_port.rx (nak_once_port.rpos + 3) = some CODE_ACK
      ∧ nak_once_port.rx (nak_once_port.rpos + 4) = some CODE_ACK)
    ∧ ((transmit_file 2 nak_once_port (readable (List.replicate 300 7))).1
          = some ErrorCode.NoError
      ∧ (transmit_file 2 nak_once_port (readable (List.replicate 300 7))).2.stderr
          = nak_once_port.stderr
            ++ [Out.banner ((List.replicate 300 7).length / 128)
                  ((List.replicate 300 7).length % 128),
                Out.ch '.', Out.ch 'x', Out.ch '.', Out.ch '.', Out.ch '\n'])
    ∧ ((transmit_file 1 (ack_then_silent 1) (readable sample_300)).1
          = some ErrorCode.TargetIllegalResponse
      ∧ (transmit_file 1 (ack_then_silent 1) (readable sample_300)).2.stderr
          = [Out.banner 2 44, Out.ch '.', Out.ch 'x', Out.ch '\n']
      ∧ (writes (ack_then_silent 1) (transmit_file 1 (ack_then_silent 1) (readable sample_300)).2).length = 2)
    ∧ (∃ n, (transmit_file 1 (ack_then_silent 1) (readable sample_300)).2.stderr
          = (ack_then_silent 1).stderr ++ [Out.banner (sample_300.length / 128) (sample_300.length % 128)]
            ++ (List.range n).map
                (fun j => Out.ch (if (ack_then_silent 1).rx ((ack_then_silent 1).rpos + j) = some CODE_ACK
                  then '.' else 'x'))
            ++ (if (transmit_file 1 (ack_then_silent 1) (readable sample_300)).1 = none then []
                else [Out.ch '\n'])
        ∧ (writes (ack_then_silent 1) (transmit_file 1 (ack_then_silent 1) (readable sample_300)).2).countP
            (fun w => decide (w ≠ [CODE_EOT])) = n
        ∧ (∀ j, j < n →
            ∃ w, (writes (ack_then_silent 1) (transmit_file 1 (ack_then_silent 1) (readable sample_300)).2)[j]? = some w
              ∧ w ≠ [CODE_EOT])
        ∧ ∀ j w, (writes (ack_then_silent 1) (transmit_file 1 (ack_then_silent 1) (readable sample_300)).2)[j]? = some w →
            (w ≠ [CODE_EOT] ↔ j < n)) :=
  ⟨⟨by decide, by decide, by decide, by decide, by decide, by decide, by decide⟩,
    (transmit_file_progress 2 nak_once_port (List.replicate 300 7)).2
      (by decide) (by decide) (by decide) (by decide) (by decide) (by decide) (by decide),
    ⟨by decide, by decide, by decide⟩,
    (transmit_file_progress 1 (ack_then_silent 1) sample_300).1⟩

set_option maxRecDepth 100000 in
/-- C7 (as stated) fails: in scenario S5 on a file of 300 bytes the marks
printed for the three blocks are `.x..`, four of them, and not `.x.`. -/
theorem transmit_file_progress_s5_is_not_dot_x_dot :
    (transmit_file 2 nak_once_port (readable (List.replicate 300 7))).1
        = some ErrorCode.NoError
      ∧ (transmit_file 2 nak_once_port (readable (List.replicate 300 7))).2.stderr
          = [Out.banner 2 44, Out.ch '.', Out.ch 'x', Out.ch '.', Out.ch '.', Out.ch '\n']
      ∧ (transmit_file 2 nak_once_port (readable (List.replicate 300 7))).2.stderr
          ≠ [Out.banner 2 44, Out.ch '.', Out.ch 'x', Out.ch '.', Out.ch '\n'] := by
  decide

/-! ## Retransmission without a limit -/

theorem send_buf_number_inj {a b : Nat} {x y : List Nat} (h : send_buf a x = send_buf b y) :
    a = b := by
  simp only [send_buf, List.cons_append, List.cons.injEq] at h
  exact h.2.1

/-- C10: `transmit_file` has no retry limit.  When the target answers the
first frame of a non-empty file with `CODE_NAK` `n` times and then with
`CODE_ACK`, that frame is written `n + 1` times, byte for byte the same, and
the next buffer written is a different one (the frame numbered 2, or
`CODE_EOT`), whatever `n` is.  When the target answers `CODE_NAK` for ever,
the function never returns: however many iterations the retry loop is given,
it uses them all, each writing the frame of block 1 again. -/
theorem transmit_file_retransmits (n fuel : Nat) (s : Host) (data : List Nat)
    (hdata : data ≠ []) :
    ((∀ j, j < n → s.rx (s.rpos + j) = some CODE_NAK) →
        s.rx (s.rpos + n) = some CODE_ACK → n < fuel →
        (∀ j, j ≤ n → (writes s (transmit_file fuel s (readable data)).2)[j]?
            = some (send_buf 1 (payload data 0)))
          ∧ ∃ w2, (writes s (transmit_file fuel s (readable data)).2)[n + 1]? = some w2
              ∧ w2 ≠ send_buf 1 (payload data 0)
              ∧ (w2 = [CODE_EOT] ∨ w2 = send_buf 2 (payload data 1)))
      ∧ ((∀ j, s.rx (s.rpos + j) = some CODE_NAK) →
          (transmit_file fuel s (readable data)).1 = none
            ∧ fuel ≤ (writes s (transmit_file fuel s (readable data)).2).length
            ∧ ∀ w ∈ writes s (transmit_file fuel s (readable data)).2,
                w = send_buf 1 (payload data 0)) := by
  obtain ⟨m, hfr, _, _, hend⟩ := transmit_file_trace fuel s data
  have hN := block_total_pos data hdata
  constructor
  · intro hnak hack hfuel
    have hz : ∀ j, j ≤ n → acks s.rx s.rpos j = 0 := by
      intro j hj
      apply acks_eq_zero
      intro t ht
      rw [hnak t (by omega)]
      exact NAK_ne_ACK
    have hnm : n < m := by
      by_contra hc
      rcases hend with ⟨_, _, _, h1, _⟩ | ⟨_, _, _, h1, _, h2⟩ | ⟨_, _, _, _, ha⟩
      · omega
      · exact h2 (hnak (m - 1) (by omega))
      · rw [hz m (by omega)] at ha; omega
    have hfirst : ∀ j, j ≤ n → (writes s (transmit_file fuel s (readable data)).2)[j]?
        = some (send_buf 1 (payload data 0)) := by
      intro j hj
      have := (hfr j (by omega)).1
      rw [hz j hj] at this
      exact this
    refine ⟨hfirst, ?_⟩
    rcases writes_step fuel s data n _ (hfirst n (Nat.le_refl n)) (send_buf_ne_EOT _ _) with
      ⟨_, w2, hw2⟩ | ⟨h, _⟩ | ⟨h, _⟩
    · refine ⟨w2, hw2, ?_⟩
      have ha1 : acks s.rx s.rpos (n + 1) = 1 := by
        rw [acks, hz n (Nat.le_refl n), if_pos hack]
      rcases writes_cases fuel s data (n + 1) w2 hw2 with ⟨e, _⟩ | ⟨e, _⟩
      · exact ⟨by rw [e]; exact (send_buf_ne_EOT _ _).symm, Or.inl e⟩
      · rw [ha1] at e
        have e2 : w2 = send_buf 2 (payload data 1) := e
        refine ⟨?_, Or.inr e2⟩
        rw [e2]
        intro hc
        exact absurd (send_buf_number_inj hc) (by decide)
    · rw [hack] at h
      exact absurd h.symm NAK_ne_ACK
    · exact absurd hack h
  · intro hnak
    have hz : ∀ j, acks s.rx s.rpos j = 0 := by
      intro j
      apply acks_eq_zero
      intro t _
      rw [hnak t]
      exact NAK_ne_ACK
    rcases hend with ⟨hr, hl, _, h1, _⟩ | ⟨_, _, _, _, _, h2⟩ | ⟨_, _, _, _, ha⟩
    · refine ⟨hr, by omega, ?_⟩
      intro w hw
      obtain ⟨j, hj⟩ := List.mem_iff_getElem?.1 hw
      have hjm : j < m := by
        have := (List.getElem?_eq_some_iff.1 hj).1
        omega
      have := (hfr j hjm).1
      rw [hj, hz j] at this
      exact Option.some.inj this
    · exact absurd (hnak _) h2
    · rw [hz m] at ha; omega

set_option maxRecDepth 100000 in
theorem transmit_file_retransmits_witness :
    (([5] : List Nat) ≠ []
      ∧ (∀ j, j < 3 → (nak_port 3).rx ((nak_port 3).rpos + j) = some CODE_NAK)
      ∧ (nak_port 3).rx ((nak_port 3).rpos + 3) = some CODE_ACK ∧ 3 < 5)
    ∧ ((∀ j, j ≤ 3 → (writes (nak_port 3) (transmit_file 5 (nak_port 3) (readable [5])).2)[j]?
          = some (send_buf 1 (payload [5] 0)))
      ∧ ∃ w2, (writes (nak_port 3) (transmit_file 5 (nak_port 3) (readable [5])).2)[3 + 1]?
            = some w2
          ∧ w2 ≠ send_buf 1 (payload [5] 0)
          ∧ (w2 = [CODE_EOT] ∨ w2 = send_buf 2 (payload [5] 1)))
    ∧ (∀ j, nak_for_ever.rx (nak_for_ever.rpos + j) = some CODE_NAK)
    ∧ ((transmit_file 5 nak_for_ever (readable [5])).1 = none
      ∧ 5 ≤ (writes nak_for_ever (transmit_file 5 nak_for_ever (readable [5])).2).length
      ∧ ∀ w ∈ writes nak_for_ever (transmit_file 5 nak_for_ever (readable [5])).2,
          w = send_buf 1 (payload [5] 0)) :=
  ⟨⟨by decide, by decide, by decide, by decide⟩,
    (transmit_file_retransmits 3 5 (nak_port 3) [5] (by decide)).1
      (by decide) (by decide) (by decide),
    fun _ => rfl,
    (transmit_file_retransmits 0 5 nak_for_ever [5] (by decide)).2 (fun _ => rfl)⟩

/-! ## The counters in their C types -/

theorem tdiv_cast (n : Nat) : Int.tdiv (n : Int) 128 = ((n / 128 : Nat) : Int) :=
  (Int.ofNat_tdiv n 128).symm

theorem tmod_cast (n : Nat) : Int.tmod (n : Int) 128 = ((n % 128 : Nat) : Int) :=
  (Int.ofNat_tmod n 128).symm

/-- For a file of fewer than `2 ^ 31` full blocks the narrowing to `int`
changes neither count. -/
theorem counts_in_range (n : Nat) (h : n / 128 < 2147483648) :
    ftell n = n
      ∧ to_int ((ftell n).tdiv 128) = ((n / 128 : Nat) : Int)
      ∧ to_int ((ftell n).tmod 128) = ((n % 128 : Nat) : Int) := by
  have hf : ftell n = n := by
    unfold ftell
    rw [if_pos (by omega)]
  rw [hf, tdiv_cast, tmod_cast]
  refine ⟨rfl, ?_, ?_⟩ <;> (unfold to_int; omega)

theorem transmit_counted_stage (data : List Nat) (fuel : Nat) (s0 : Host) (hfp : s0.fpos = 0) :
    ∃ s2 c, Stage data fuel 0 1 (block_total data.length) s0 s2 c
      ∧ transmit_counted data fuel (data.length / 128) (data.length % 128) s0
        = c.andThen s2 fun s2 => (send_eot s2).1.andThen (send_eot s2).2
            fun s3 => at_out ErrorCode.NoError s3 := by
  have h1 := full_blocks_stage data fuel (data.length / XMODEM_DATA_BLKSIZ) 0 1 s0
    (by decide) (by rw [hfp]; rfl) (by rw [Nat.zero_add]; exact Nat.mul_div_le _ _)
  by_cases hn : (full_blocks data fuel (data.length / XMODEM_DATA_BLKSIZ) 1 s0).1 = Ctl.next
  · obtain ⟨e1, e2⟩ := h1.2 hn
    rw [Nat.zero_add] at e2
    have h2 := last_block_stage data fuel ((1 + data.length / XMODEM_DATA_BLKSIZ) % 256) _
      (Nat.mod_lt _ (by decide)) e2
    have h3 := h1.1
    rw [hn] at h3
    have h4 := Stage.seq h3 (by rw [Nat.zero_add]; exact h2)
    refine ⟨_, _, h4, ?_⟩
    have hn2 : (full_blocks data fuel (data.length / 128) 1 s0).1 = Ctl.next := hn
    have e12 : (full_blocks data fuel (data.length / 128) 1 s0).2.1
        = (1 + data.length / XMODEM_DATA_BLKSIZ) % 256 := e1
    rw [transmit_counted, hn2, e12]
    rfl
  · refine ⟨_, _, h1.1.weaken hn (by simp [block_total]), ?_⟩
    exact andThen_congr _ _ _ _ hn

/-- A stage whose frames are all acknowledged sends each block once. -/
theorem stage_acked {data : List Nat} {fuel total : Nat} {s0 s2 : Host} {c : Ctl}
    (h : Stage data fuel 0 1 total s0 s2 c) (hf : 0 < fuel)
    (hack : ∀ k, k < total → s0.rx (s0.rpos + k) = some CODE_ACK) :
    c = Ctl.next ∧ s2.rx = s0.rx ∧ s2.rpos = s0.rpos + total
      ∧ s2.tx = s0.tx ++ (List.range total).map
          (fun k => send_buf ((1 + k) % 256) (payload data k)) := by
  obtain ⟨frames, ⟨h1, h2, h3, _⟩, hn, hb, _, ho, _⟩ := h
  have hacks : ∀ j, j ≤ total → acks s0.rx s0.rpos j = j :=
    fun j hj => acks_eq_self _ _ _ (fun k hk => hack k (by omega))
  have hle : frames.length ≤ total := by
    by_contra hc
    have := hb total (by omega)
    rw [hacks total (Nat.le_refl _)] at this
    omega
  have hcn : c = Ctl.next ∧ frames.length = total := by
    cases c with
    | next =>
      have ha : acks s0.rx s0.rpos frames.length = total := ho
      rw [hacks _ hle] at ha
      exact ⟨rfl, ha⟩
    | out e =>
      obtain ⟨_, hpos, hna, _⟩ := ho
      exact absurd (hack _ (by omega)) hna
    | spin =>
      obtain ⟨hfl, hnak⟩ := ho
      have e := hnak (frames.length - 1) (by omega) (by omega)
      rw [hack _ (by omega)] at e
      exact absurd e.symm NAK_ne_ACK
  obtain ⟨hc, hlen⟩ := hcn
  refine ⟨hc, h1, by rw [h2, hlen], ?_⟩
  rw [h3]
  congr 1
  apply List.ext_getElem?
  intro i
  by_cases hi : i < frames.length
  · have e : frames[i]? = some frames[i] := List.getElem?_eq_getElem hi
    rw [e, hn i _ e, hacks i (by omega)]
    simp [hlen ▸ hi]
  · rw [List.getElem?_eq_none (by omega), List.getElem?_eq_none (by simp; omega)]

theorem transmit_counted_acked (data : List Nat) (fuel : Nat) (s0 : Host) (hfp : s0.fpos = 0)
    (hf : 0 < fuel)
    (hack : ∀ k, k < block_total data.length → s0.rx (s0.rpos + k) = some CODE_ACK) :
    (transmit_counted data fuel (data.length / 128) (data.length % 128) s0).1
        = some (if s0.rx (s0.rpos + block_total data.length) = some CODE_ACK
            then ErrorCode.NoError else ErrorCode.TargetIllegalResponse)
      ∧ (transmit_counted data fuel (data.length / 128) (data.length % 128) s0).2.tx
        = s0.tx ++ ((List.range (block_total data.length)).map
            (fun k => send_buf ((1 + k) % 256) (payload data k)) ++ [[CODE_EOT]]) := by
  obtain ⟨s2, c, hst, heq⟩ := transmit_counted_stage data fuel s0 hfp
  obtain ⟨hc, h1, h2, h3⟩ := stage_acked hst hf hack
  subst hc
  have hrd : s2.rx s2.rpos = s0.rx (s0.rpos + block_total data.length) := by rw [h1, h2]
  rw [heq]
  simp only [Ctl.andThen, send_eot_eq, hrd, getD_EOT_eq_ACK]
  by_cases ha : s0.rx (s0.rpos + block_total data.length) = some CODE_ACK
  · simp only [ha, if_true]
    exact ⟨rfl, by simp [at_out, fprintf_char, h3]⟩
  · simp only [ha, if_false]
    exact ⟨rfl, by simp [at_out, fprintf_char, h3]⟩

theorem transmit_file_lp64_readable (fuel : Nat) (s : Host) (data : List Nat)
    (h : data.length / 128 < 2147483648) :
    transmit_file_lp64 fuel s (readable data)
      = transmit_counted data fuel (data.length / 128) (data.length % 128)
          { s with fpos := 0,
                   stderr := s.stderr ++ [Out.banner_int ((data.length / 128 : Nat) : Int)
                     ((data.length % 128 : Nat) : Int)] } := by
  obtain ⟨_, e2, e3⟩ := counts_in_range data.length h
  simp only [transmit_file_lp64, readable, Bool.true_eq_false, if_false]
  rw [e2, e3, Int.toNat_ofNat, Int.toNat_ofNat]

/-! ## The blocks of a file -/

theorem transmit_counted_zero (data : List Nat) (fuel : Nat) (s0 : Host) :
    transmit_counted data fuel 0 0 s0
      = (send_eot s0).1.andThen (send_eot s0).2 fun s3 => at_out ErrorCode.NoError s3 :=
  rfl

theorem lp64_writes (fuel : Nat) (s : Host) (data : List Nat) (hf : 0 < fuel)
    (hsize : data.length / 128 < 2147483648)
    (hack : ∀ k, k < block_total data.length → s.rx (s.rpos + k) = some CODE_ACK) :
    (transmit_file_lp64 fuel s (readable data)).1
        = some (if s.rx (s.rpos + block_total data.length) = some CODE_ACK
            then ErrorCode.NoError else ErrorCode.TargetIllegalResponse)
      ∧ writes s (transmit_file_lp64 fuel s (readable data)).2
        = (List.range (block_total data.length)).map
            (fun k => send_buf ((1 + k) % 256) (payload data k)) ++ [[CODE_EOT]] := by
  rw [transmit_file_lp64_readable fuel s data hsize]
  obtain ⟨h1, h2⟩ := transmit_counted_acked data fuel
    { s with fpos := 0,
             stderr := s.stderr ++ [Out.banner_int ((data.length / 128 : Nat) : Int)
               ((data.length % 128 : Nat) : Int)] } rfl hf hack
  refine ⟨h1, ?_⟩
  rw [writes, h2]
  simp

/-- C5 (as amended): for a file of `n` bytes with fewer than `2 ^ 31` full
blocks, sent to a target that acknowledges every frame, `transmit_file`
(with its counters in their C types) writes `n / 128` full blocks, numbered
from 1, whose data are the consecutive 128-byte slices of the file, then, if
and only if `n % 128 > 0`, one block whose data are the remaining `n % 128`
bytes followed by `128 - n % 128` bytes `CODE_EOF`, then `CODE_EOT`.  The data
of all frames, concatenated and cut to `n` bytes, are the file; every frame
has 132 bytes of which 128 are data; an empty file gives `CODE_EOT` alone.
The value returned is decided by the reply to `CODE_EOT`, on which nothing is
assumed. -/
theorem transmit_file_blocks (fuel : Nat) (s : Host) (data : List Nat) (hf : 0 < fuel)
    (hsize : data.length / 128 < 2147483648)
    (hack : ∀ k, k < block_total data.length → s.rx (s.rpos + k) = some CODE_ACK) :
    (writes s (transmit_file_lp64 fuel s (readable data)).2)
          = (List.range (data.length / 128)).map
                (fun k => send_buf ((k + 1) % 256) ((data.drop (128 * k)).take 128))
              ++ (if 0 < data.length % 128 then
                    [send_buf ((data.length / 128 + 1) % 256)
                      (data.drop (128 * (data.length / 128))
                        ++ List.replicate (128 - data.length % 128) CODE_EOF)]
                  else [])
              ++ [[CODE_EOT]]
      ∧ (((writes s (transmit_file_lp64 fuel s (readable data)).2).dropLast.map
            frame_payload).flatten).take data.length = data
      ∧ (∀ w ∈ (writes s (transmit_file_lp64 fuel s (readable data)).2).dropLast,
          w.length = 132 ∧ (frame_payload w).length = 128)
      ∧ (data = [] → (writes s (transmit_file_lp64 fuel s (readable data)).2) = [[CODE_EOT]])
      ∧ (transmit_file_lp64 fuel s (readable data)).1
          = some (if s.rx (s.rpos + block_total data.length) = some CODE_ACK
              then ErrorCode.NoError else ErrorCode.TargetIllegalResponse) := by
  obtain ⟨h1, h2⟩ := lp64_writes fuel s data hf hsize hack
  have hdl : (writes s (transmit_file_lp64 fuel s (readable data)).2).dropLast
      = (List.range (block_total data.length)).map
          (fun k => send_buf ((1 + k) % 256) (payload data k)) := by
    rw [h2]; simp
  refine ⟨?_, ?_, ?_, ?_, h1⟩
  · rw [h2, blocks_split]
  · rw [hdl, List.map_map]
    have : (frame_payload ∘ fun k => send_buf ((1 + k) % 256) (payload data k))
        = payload data := by
      funext k
      exact frame_payload_send_buf _ _ (payload_length _ _)
    rw [this]
    exact join_payload _ data (le_block_total _)
  · intro w hw
    rw [hdl] at hw
    obtain ⟨k, _, rfl⟩ := List.mem_map.1 hw
    refine ⟨?_, ?_⟩
    · rw [send_buf_length, payload_length]; rfl
    · rw [frame_payload_send_buf _ _ (payload_length _ _), payload_length]; rfl
  · intro he
    rw [h2, he]
    rfl

set_option maxRecDepth 100000 in
theorem transmit_file_blocks_witness :
    (0 < 1 ∧ sample_300.length / 128 < 2147483648
      ∧ ∀ k, k < block_total sample_300.length →
          (ack_then_silent 3).rx ((ack_then_silent 3).rpos + k) = some CODE_ACK)
    ∧ ((writes (ack_then_silent 3) (transmit_file_lp64 1 (ack_then_silent 3) (readable sample_300)).2)
          = (List.range (sample_300.length / 128)).map
                (fun k => send_buf ((k + 1) % 256) ((sample_300.drop (128 * k)).take 128))
              ++ (if 0 < sample_300.length % 128 then
                    [send_buf ((sample_300.length / 128 + 1) % 256)
                      (sample_300.drop (128 * (sample_300.length / 128))
                        ++ List.replicate (128 - sample_300.length % 128) CODE_EOF)]
                  else [])
              ++ [[CODE_EOT]]
      ∧ (((writes (ack_then_silent 3) (transmit_file_lp64 1 (ack_then_silent 3) (readable sample_300)).2).dropLast.map
            frame_payload).flatten).take sample_300.length = sample_300
      ∧ (∀ w ∈ (writes (ack_then_silent 3) (transmit_file_lp64 1 (ack_then_silent 3) (readable sample_300)).2).dropLast,
          w.length = 132 ∧ (frame_payload w).length = 128)
      ∧ (sample_300 = [] → (writes (ack_then_silent 3) (transmit_file_lp64 1 (ack_then_silent 3) (readable sample_300)).2) = [[CODE_EOT]])
      ∧ (transmit_file_lp64 1 (ack_then_silent 3) (readable sample_300)).1
          = some (if (ack_then_silent 3).rx ((ack_then_silent 3).rpos + block_total sample_300.length) = some CODE_ACK
              then ErrorCode.NoError else ErrorCode.TargetIllegalResponse)) :=
  ⟨⟨by decide, by decide, by decide⟩,
    transmit_file_blocks 1 (ack_then_silent 3) sample_300 (by decide) (by decide)
      (by decide)⟩

/-- C5 (as stated) fails for a file too large for `int block_count`: a file of
`2 ^ 38` bytes has `2 ^ 31` full blocks, the count narrowed to `int` is
negative, the loop over the full blocks runs no iteration and `CODE_EOT` is
the only buffer written, although the target acknowledges everything. -/
theorem transmit_file_lp64_huge_file_sends_no_block :
    (List.replicate 274877906944 0).length / 128 = 2147483648
      ∧ to_int ((ftell (List.replicate 274877906944 0).length).tdiv 128) = -2147483648
      ∧ writes ack_port
          (transmit_file_lp64 1 ack_port (readable (List.replicate 274877906944 0))).2
        = [[CODE_EOT]]
      ∧ writes ack_port
          (transmit_file_lp64 1 ack_port (readable (List.replicate 274877906944 0))).2
        ≠ (List.range ((List.replicate 274877906944 0).length / 128)).map
                (fun k => send_buf ((k + 1) % 256)
                  (((List.replicate 274877906944 0).drop (128 * k)).take 128))
              ++ (if 0 < (List.replicate 274877906944 0).length % 128 then
                    [send_buf (((List.replicate 274877906944 0).length / 128 + 1) % 256)
                      ((List.replicate 274877906944 0).drop
                          (128 * ((List.replicate 274877906944 0).length / 128))
                        ++ List.replicate
                            (128 - (List.replicate 274877906944 0).length % 128) CODE_EOF)]
                  else [])
              ++ [[CODE_EOT]] := by
  have hl : (List.replicate 274877906944 0).length = 274877906944 := List.length_replicate _ _
  have hc1 : to_int ((ftell 274877906944).tdiv 128) = -2147483648 := by decide
  have hc2 : to_int ((ftell 274877906944).tmod 128) = 0 := by decide
  have hw : writes ack_port
      (transmit_file_lp64 1 ack_port (readable (List.replicate 274877906944 0))).2
        = [[CODE_EOT]] := by
    simp only [transmit_file_lp64, readable, Bool.true_eq_false, if_false, hl, hc1, hc2]
    have e1 : Int.toNat (-2147483648) = 0 := by decide
    have e2 : Int.toNat 0 = 0 := rfl
    rw [e1, e2, transmit_counted_zero]
    simp [writes, send_eot_eq, Ctl.andThen, at_out, fprintf_char, ack_port, CODE_ACK]
  refine ⟨by rw [hl], by rw [hl]; exact hc1, hw, ?_⟩
  rw [hw, hl]
  intro h
  have := congrArg List.length h
  rw [List.length_append, List.length_append, List.length_map, List.length_range] at this
  simp only [List.length_cons, List.length_nil] at this
  omega

/-! ## Block numbers on sample runs -/

theorem sample_wrap_writes (j : Nat) (hj : j < 256) :
    (writes ack_port (transmit_file 1 ack_port (readable sample_wrap)).2)[j]?
      = some (send_buf ((1 + j) % 256) (payload sample_wrap j)) := by
  have hN : block_total sample_wrap.length = 256 := by
    rw [sample_wrap, List.length_replicate]
    rfl
  rw [(transmit_file_all_ack 1 ack_port sample_wrap (by decide) (fun _ => rfl)).2, hN,
    List.getElem?_append_left (by simpa using hj)]
  simp [hj]

set_option maxRecDepth 100000 in
theorem transmit_file_block_numbers_witness :
    (((writes nak_once_port (transmit_file 2 nak_once_port (readable sample_300)).2)[0]? = some (send_buf 1 (payload sample_300 0))
        ∧ (send_buf 1 (payload sample_300 0)) ≠ [CODE_EOT])
      ∧ ((send_buf 1 (payload sample_300 0))[1]? = some ((acks nak_once_port.rx nak_once_port.rpos 0 + 1) % 256)
        ∧ (∃ f, readable sample_300 = some f
            ∧ acks nak_once_port.rx nak_once_port.rpos 0 < block_total f.data.length
            ∧ frame_payload (send_buf 1 (payload sample_300 0)) = payload f.data (acks nak_once_port.rx nak_once_port.rpos 0))
        ∧ (0 = 0 → (send_buf 1 (payload sample_300 0))[1]? = some 1)
        ∧ (∀ w2, (writes nak_once_port (transmit_file 2 nak_once_port (readable sample_300)).2)[0 + 1]? = some w2 → w2 ≠ [CODE_EOT] →
            (nak_once_port.rx (nak_once_port.rpos + 0) = some CODE_NAK ∧ w2 = (send_buf 1 (payload sample_300 0)))
              ∨ (nak_once_port.rx (nak_once_port.rpos + 0) = some CODE_ACK
                ∧ acks nak_once_port.rx nak_once_port.rpos (0 + 1) = acks nak_once_port.rx nak_once_port.rpos 0 + 1
                ∧ ∃ b, (send_buf 1 (payload sample_300 0))[1]? = some b ∧ w2[1]? = some ((b + 1) % 256)))))
    ∧ (((writes nak_once_port (transmit_file 2 nak_once_port (readable sample_300)).2)[0 + 1]? = some (send_buf 2 (payload sample_300 1))
        ∧ (send_buf 2 (payload sample_300 1)) ≠ [CODE_EOT])
      ∧ ((nak_once_port.rx (nak_once_port.rpos + 0) = some CODE_NAK ∧ (send_buf 2 (payload sample_300 1)) = (send_buf 1 (payload sample_300 0)))
        ∨ (nak_once_port.rx (nak_once_port.rpos + 0) = some CODE_ACK
          ∧ acks nak_once_port.rx nak_once_port.rpos (0 + 1) = acks nak_once_port.rx nak_once_port.rpos 0 + 1
          ∧ ∃ b, (send_buf 1 (payload sample_300 0))[1]? = some b ∧ (send_buf 2 (payload sample_300 1))[1]? = some ((b + 1) % 256))))
    ∧ (((writes nak_once_port (transmit_file 2 nak_once_port (readable sample_300)).2)[1]? = some (send_buf 2 (payload sample_300 1))
        ∧ (writes nak_once_port (transmit_file 2 nak_once_port (readable sample_300)).2)[1 + 1]? = some (send_buf 2 (payload sample_300 1))
        ∧ nak_once_port.rx (nak_once_port.rpos + 1) = some CODE_NAK)
      ∧ ((nak_once_port.rx (nak_once_port.rpos + 1) = some CODE_NAK ∧ (send_buf 2 (payload sample_300 1)) = (send_buf 2 (payload sample_300 1)))
        ∨ (nak_once_port.rx (nak_once_port.rpos + 1) = some CODE_ACK
          ∧ acks nak_once_port.rx nak_once_port.rpos (1 + 1) = acks nak_once_port.rx nak_once_port.rpos 1 + 1
          ∧ ∃ b, (send_buf 2 (payload sample_300 1))[1]? = some b ∧ (send_buf 2 (payload sample_300 1))[1]? = some ((b + 1) % 256))))
    ∧ (((writes ack_port (transmit_file 1 ack_port (readable sample_wrap)).2)[254]? = some (send_buf 255 (payload sample_wrap 254))
        ∧ (writes ack_port (transmit_file 1 ack_port (readable sample_wrap)).2)[254 + 1]? = some (send_buf 0 (payload sample_wrap 255))
        ∧ (send_buf 255 (payload sample_wrap 254))[1]? = some 255 ∧ (send_buf 0 (payload sample_wrap 255))[1]? = some 0)
      ∧ ((ack_port.rx (ack_port.rpos + 254) = some CODE_NAK ∧ (send_buf 0 (payload sample_wrap 255)) = (send_buf 255 (payload sample_wrap 254)))
        ∨ (ack_port.rx (ack_port.rpos + 254) = some CODE_ACK
          ∧ acks ack_port.rx ack_port.rpos (254 + 1) = acks ack_port.rx ack_port.rpos 254 + 1
          ∧ ∃ b, (send_buf 255 (payload sample_wrap 254))[1]? = some b ∧ (send_buf 0 (payload sample_wrap 255))[1]? = some ((b + 1) % 256)))) :=
  ⟨⟨⟨by decide, by decide⟩,
      transmit_file_block_numbers 2 nak_once_port (readable sample_300) 0 (send_buf 1 (payload sample_300 0)) (by decide) (by decide)⟩,
    ⟨⟨by decide, by decide⟩,
      (transmit_file_block_numbers 2 nak_once_port (readable sample_300) 0 (send_buf 1 (payload sample_300 0)) (by decide) (by decide)).2.2.2
        (send_buf 2 (payload sample_300 1)) (by decide) (by decide)⟩,
    ⟨⟨by decide, by decide, by decide⟩,
      (transmit_file_block_numbers 2 nak_once_port (readable sample_300) 1 (send_buf 2 (payload sample_300 1)) (by decide) (by decide)).2.2.2
        (send_buf 2 (payload sample_300 1)) (by decide) (by decide)⟩,
    ⟨⟨sample_wrap_writes 254 (by decide), sample_wrap_writes 255 (by decide),
        by simp [send_buf], by simp [send_buf]⟩,
      (transmit_file_block_numbers 1 ack_port (readable sample_wrap) 254 (send_buf 255 (payload sample_wrap 254))
          (sample_wrap_writes 254 (by decide)) (send_buf_ne_EOT _ _)).2.2.2
        (send_buf 0 (payload sample_wrap 255)) (sample_wrap_writes 255 (by decide)) (send_buf_ne_EOT _ _)⟩⟩

end KzXmodem

namespace Os07

/-! ## `intr` -/

set_option maxRecDepth 20000 in
/-- C9: `intr` stores without comparing `len` with the size of `buf`: 32
characters without a newline fill the array and leave `len = 32`, and the
next character, newline or not, is stored at index 32, outside of it. -/
theorem intr_stores_past_buf :
    (run (List.replicate 32 97)).len = 32
      ∧ (run (List.replicate 32 97)).stray = []
      ∧ (run (List.replicate 32 97 ++ [10])).stray = [32]
      ∧ (run (List.replicate 33 97)).stray = [32]
      ∧ (run (List.replicate 33 97)).len = 33 := by
  decide

end Os07
